import Mathlib

/-!
# Verification of the workbook-parsing core (parser.py / parser_universal.py)

Shallow embedding of the layout-inference and extraction engine of the
PowerBI repository.  Cell values, grids and parse results are modelled as
inductive data; the Python helper functions are translated one-to-one into
executable Lean definitions.  Conventions of the embedding:

* A spreadsheet cell is `Cell`: empty (`Cell.none`, covering both Python
  `None` from openpyxl and pandas `NaN`, which every code path under test
  treats identically via `_is_blank` / `is not None` as noted per claim),
  a string, a finite number (Python `float`, modelled exactly by `ℚ` for
  the decimal-representable values the parser manipulates; non-finite
  floats are outside the model), or a native date.
* Python `datetime` values are modelled at day precision (`DateYMD`),
  which is faithful here because the parser truncates times to midnight
  (`replace(hour=0, ...)`) before any comparison or subtraction.
* `float(str)` is modelled by `pyFloat` for finite decimal literals with
  optional exponent; the separately tracked `pyFloatSpecial` records the
  inf/nan spellings that Python also accepts, where only acceptance (not
  the value) matters.
* External libraries are modelled at their call boundary: the Excel
  loader's outcome and the lenient `pd.to_datetime` fallback are inputs
  (an `Option` value / an oracle function), everything else is translated
  from the source.
-/

namespace PBI

/-- Python whitespace recognised by `str.strip()` (ASCII subset). -/
def isPyWs (c : Char) : Bool :=
  c == ' ' || c == '\t' || c == '\n' || c == '\r' || c == Char.ofNat 11 || c == Char.ofNat 12

/-- `str.strip()` on a character list. -/
def trimList (l : List Char) : List Char :=
  ((l.dropWhile isPyWs).reverse.dropWhile isPyWs).reverse

/-- `str.strip()`. -/
def pyTrim (s : String) : String :=
  String.mk (trimList s.data)

/-- ASCII lower-casing of one character (`str.lower()` on the data in scope). -/
def lowChar (c : Char) : Char :=
  if 'A' ≤ c ∧ c ≤ 'Z' then Char.ofNat (c.toNat + 32) else c

/-- `str.lower()`. -/
def lowStr (s : String) : String :=
  String.mk (s.data.map lowChar)

/-- Is `n` an initial segment of `h`? (helper for substring search). -/
def listIsInit : List Char → List Char → Bool
  | [], _ => true
  | _ :: _, [] => false
  | a :: as, b :: bs => a == b && listIsInit as bs

/-- Python `needle in hay` substring test on character lists. -/
def listHasSub (n : List Char) : List Char → Bool
  | [] => listIsInit n []
  | c :: cs => listIsInit n (c :: cs) || listHasSub n cs

/-- Python `needle in hay` substring test. -/
def strHasSub (hay needle : String) : Bool :=
  listHasSub needle.data hay.data

/-- Python `hay.startswith(pre)`. -/
def strStarts (hay pre : String) : Bool :=
  listIsInit pre.data hay.data

/-- `s.replace(c, "")` for a single character, i.e. delete every occurrence. -/
def delChar (c : Char) (s : String) : String :=
  String.mk (s.data.filter (fun x => !(x == c)))

/-- `s.rstrip(":")`: remove every trailing colon. -/
def rstripColon (s : String) : String :=
  String.mk ((s.data.reverse.dropWhile (fun c => c == ':')).reverse)

/-- `s.split(sep)` for a one-character separator (used by the strptime model). -/
def splitChar (sep : Char) : List Char → List (List Char)
  | [] => [[]]
  | c :: cs =>
    match splitChar sep cs with
    | [] => [[]]
    | p :: ps => if c == sep then [] :: p :: ps else (c :: p) :: ps

/-- Digit-string value accumulator. -/
def digitsVal (l : List Char) : Nat :=
  l.foldl (fun a c => a * 10 + (c.toNat - '0'.toNat)) 0

/-- Are all characters decimal digits (and the list non-empty)? -/
def allDigits (l : List Char) : Bool :=
  !l.isEmpty && l.all Char.isDigit

/-- Decimal repeat-pad helper. -/
def zeroPad (width : Nat) (s : String) : String :=
  String.mk (List.replicate (width - s.length) '0') ++ s

/-- Left-zero-padded decimal rendering of a natural number. -/
def padNat (width n : Nat) : String :=
  zeroPad width (toString n)

/-! ## Python float literals

`pyFloat` models `float(s)` on finite decimal literals: optional
surrounding whitespace, sign, integer digits, optional fraction, optional
decimal exponent.  (Underscore digit grouping and non-finite spellings
are excluded from the numeric model; `pyFloatSpecial` tracks the latter
where only acceptance matters.) -/

/-- Consume leading digits; return (digits, rest). -/
def spanDigits (l : List Char) : List Char × List Char :=
  (l.takeWhile Char.isDigit, l.dropWhile Char.isDigit)

/-- Optional sign; return (negative?, rest). -/
def spanSign : List Char → Bool × List Char
  | '-' :: cs => (true, cs)
  | '+' :: cs => (false, cs)
  | cs => (false, cs)

/-- Finish a float literal: optional exponent, then end of input.  The
value is carried as an integer numerator over a power-of-ten denominator
and assembled with `mkRat` (rational construction by normalisation). -/
def pyFloatExp (num : Int) (den : Nat) : List Char → Option ℚ
  | [] => some (mkRat num den)
  | c :: cs =>
    if c == 'e' || c == 'E' then
      let (eneg, cs1) := spanSign cs
      let (ed, rest) := spanDigits cs1
      if ed.isEmpty || !rest.isEmpty then none
      else
        let e := digitsVal ed
        some (if eneg then mkRat num (den * 10 ^ e) else mkRat (num * ((10 ^ e : Nat) : Int)) den)
    else none

/-- `float(s)` on a finite decimal literal; `none` when Python raises
`ValueError` (or when the literal is a non-finite spelling, outside the
numeric model). -/
def pyFloat (s : String) : Option ℚ :=
  let (neg, cs) := spanSign (trimList s.data)
  let (ip, cs1) := spanDigits cs
  let cont : List Char → Nat → Nat → Option ℚ := fun rest fracVal fracLen =>
    if ip.isEmpty && fracLen == 0 then none
    else
      let mag : Nat := digitsVal ip * 10 ^ fracLen + fracVal
      pyFloatExp (if neg then -(mag : Int) else (mag : Int)) (10 ^ fracLen) rest
  match cs1 with
  | '.' :: cs2 =>
    let (fp, cs3) := spanDigits cs2
    cont cs3 (digitsVal fp) fp.length
  | _ => cont cs1 0 0

/-- `abs` on ℚ by sign inspection (kept in terms of the primitive
numerator so concrete values evaluate). -/
def qabs (q : ℚ) : ℚ :=
  if q.num < 0 then -q else q

/-- Strict order on ℚ through the primitive comparison. -/
def qltB (a b : ℚ) : Bool :=
  Rat.blt a b

/-- Non-finite float spellings also accepted by `float(s)` (value untracked). -/
def pyFloatSpecial (s : String) : Bool :=
  let t := lowStr (pyTrim s)
  let body := (spanSign t.data).2
  [String.mk body].any (fun b => b == "inf" || b == "infinity" || b == "nan")

/-- Does `float(s)` succeed (finite or non-finite)? -/
def pyFloatOk (s : String) : Bool :=
  (pyFloat s).isSome || pyFloatSpecial s

/-! ## Dates -/

/-- A Python `datetime` at day precision. -/
structure DateYMD where
  y : Nat
  m : Nat
  d : Nat
deriving DecidableEq, Repr

/-- Gregorian leap year (as in Python's `datetime`). -/
def isLeap (y : Nat) : Bool :=
  y % 4 == 0 && (y % 100 != 0 || y % 400 == 0)

/-- Length of month `m` (1-based) in year `y`. -/
def monthLen (y m : Nat) : Nat :=
  if m == 2 then (if isLeap y then 29 else 28)
  else if m == 4 || m == 6 || m == 9 || m == 11 then 30
  else 31

/-- Days in the year before month `m` (1-based). -/
def daysBeforeMonth (y m : Nat) : Nat :=
  ((List.range (m - 1)).map (fun i => monthLen y (i + 1))).sum

/-- `date.toordinal()`: day number in the proleptic Gregorian calendar. -/
def ordinalD (dt : DateYMD) : Nat :=
  (dt.y - 1) * 365 + (dt.y - 1) / 4 - (dt.y - 1) / 100 + (dt.y - 1) / 400
    + daysBeforeMonth dt.y dt.m + dt.d

/-- `strftime("%Y-%m-%d")`. -/
def isoDate (dt : DateYMD) : String :=
  padNat 4 dt.y ++ "-" ++ padNat 2 dt.m ++ "-" ++ padNat 2 dt.d

/-! ## Cells -/

/-- A raw spreadsheet cell value. -/
inductive Cell where
  | none
  | str (s : String)
  | num (q : ℚ)
  | date (dt : DateYMD)
deriving DecidableEq, Repr

/-- Least decimal scale `k ≤ fuel` whose power of ten clears the
denominator (for float repr). -/
def decScaleFrom (den : Nat) : Nat → Nat → Nat
  | k, 0 => k
  | k, fuel + 1 => if 10 ^ k % den == 0 then k else decScaleFrom den (k + 1) fuel

/-- Digits of `abs(v)` in `str(v)` / `repr(v)` of a decimal-representable
float (shortest round-trip repr coincides with the decimal literal). -/
def decimalReprNN (q : ℚ) : String :=
  let k := decScaleFrom q.den 0 30
  let m := q.num.natAbs * (10 ^ k / q.den)
  if k == 0 then toString m ++ ".0"
  else toString (m / 10 ^ k) ++ "." ++ padNat k (m % 10 ^ k)

/-- `str(v)` of a Python float holding a decimal-representable value. -/
def decimalRepr (q : ℚ) : String :=
  if q.num < 0 then "-" ++ decimalReprNN q else decimalReprNN q

/-- `str(v)` on a raw cell (`str(None)`, the float repr, or the
`datetime.__str__` form `YYYY-MM-DD 00:00:00` for midnight datetimes). -/
def pyStr : Cell → String
  | Cell.none => "None"
  | Cell.str s => s
  | Cell.num q => decimalRepr q
  | Cell.date dt => isoDate dt ++ " 00:00:00"

/-- Is the cell the Python `None` (or pandas `NaN`, identified with it)? -/
def isNoneCell : Cell → Bool
  | Cell.none => true
  | _ => false

namespace Univ

/-! Embedding of `src/parser_universal.py`. -/

/-- `_clean`: stripped string; `""` for `None`/`NaN`. -/
def clean : Cell → String
  | Cell.none => ""
  | v => pyTrim (pyStr v)

/-- `_is_blank`. -/
def isBlankC (v : Cell) : Bool :=
  clean v == ""

/-- `_non_blank_vals`. -/
def nonBlankVals (row : List Cell) : List String :=
  (row.filter (fun v => !isBlankC v)).map clean

/-- One strptime field kind appearing in `_DATE_FMTS`. -/
inductive FOrder where
  | dmy
  | mdy
  | ymd
deriving DecidableEq, Repr

/-- One format of `_DATE_FMTS`: separator, field order, two-digit year flag. -/
structure Fmt where
  sep : Char
  ord : FOrder
  y2 : Bool
deriving DecidableEq, Repr

/-- `_DATE_FMTS`: d/m/Y, m/d/Y, Y-m-d, d-m-Y, Y/m/d, d.m.Y, m.d.Y, d/m/y, m/d/y. -/
def univFmts : List Fmt :=
  [⟨'/', FOrder.dmy, false⟩, ⟨'/', FOrder.mdy, false⟩, ⟨'-', FOrder.ymd, false⟩,
   ⟨'-', FOrder.dmy, false⟩, ⟨'/', FOrder.ymd, false⟩, ⟨'.', FOrder.dmy, false⟩,
   ⟨'.', FOrder.mdy, false⟩, ⟨'/', FOrder.dmy, true⟩, ⟨'/', FOrder.mdy, true⟩]

/-- strptime `%d`: one or two digits, value 1..31. -/
def fieldDay (p : List Char) : Option Nat :=
  if allDigits p && p.length ≤ 2 then
    let v := digitsVal p
    if 1 ≤ v ∧ v ≤ 31 then some v else none
  else none

/-- strptime `%m`: one or two digits, value 1..12. -/
def fieldMonth (p : List Char) : Option Nat :=
  if allDigits p && p.length ≤ 2 then
    let v := digitsVal p
    if 1 ≤ v ∧ v ≤ 12 then some v else none
  else none

/-- strptime `%Y` (four digits) or `%y` (two digits, pivot 68). -/
def fieldYear (twoDigit : Bool) (p : List Char) : Option Nat :=
  if twoDigit then
    if allDigits p && p.length == 2 then
      let v := digitsVal p
      some (if v ≤ 68 then 2000 + v else 1900 + v)
    else none
  else
    if allDigits p && p.length == 4 then some (digitsVal p) else none

/-- `datetime(y, m, d)` construction: validates the calendar, raising
(`none`) on out-of-range components exactly like Python. -/
def mkValidDate (y m d : Nat) : Option DateYMD :=
  if 1 ≤ y ∧ y ≤ 9999 ∧ d ≤ monthLen y m then some ⟨y, m, d⟩ else none

/-- `datetime.strptime(s, fmt)` for one format of `_DATE_FMTS`. -/
def runFmt (f : Fmt) (s : String) : Option DateYMD :=
  match splitChar f.sep s.data with
  | [p1, p2, p3] =>
    match f.ord with
    | FOrder.dmy => do
      let d ← fieldDay p1
      let m ← fieldMonth p2
      let y ← fieldYear f.y2 p3
      mkValidDate y m d
    | FOrder.mdy => do
      let m ← fieldMonth p1
      let d ← fieldDay p2
      let y ← fieldYear f.y2 p3
      mkValidDate y m d
    | FOrder.ymd => do
      let y ← fieldYear f.y2 p1
      let m ← fieldMonth p2
      let d ← fieldDay p3
      mkValidDate y m d
  | _ => Option.none

/-- The ordered strptime scan inside `_to_date` / `_coerce_date`. -/
def scanFmts (fmts : List Fmt) (s : String) : Option DateYMD :=
  match fmts with
  | [] => Option.none
  | f :: rest =>
    match runFmt f s with
    | some dt => some dt
    | Option.none => scanFmts rest s

/-- `_to_date`, with the lenient `pd.to_datetime(s, dayfirst=True)`
fallback supplied as an oracle `fb` (`none` = pandas raised).  Note the
source returns the cleaned string itself — not `None` — when every
format and the fallback fail (`return s  # return as-is if unparseable`). -/
def toDate (fb : String → Option DateYMD) (v : Cell) : Option String :=
  if isBlankC v then Option.none
  else
    match v with
    | Cell.date dt => some (isoDate dt)
    | _ =>
      let s := clean v
      if s == "" || [s].any (fun t => lowStr t == "nat" || lowStr t == "none" || lowStr t == "nan")
      then Option.none
      else
        match scanFmts univFmts s with
        | some dt => some (isoDate dt)
        | Option.none =>
          match fb s with
          | some dt => some (isoDate dt)
          | Option.none => some s

/-- `_to_float`: currency-like value to float. -/
def toFloat (v : Cell) : Option ℚ :=
  if isBlankC v then Option.none
  else
    match v with
    | Cell.num q => some q
    | _ =>
      let s := delChar ' ' (delChar ',' (delChar '$' (clean v)))
      let s :=
        match s.data with
        | '(' :: rest =>
          if rest ≠ [] ∧ rest.getLast? = some ')' then
            String.mk ('-' :: rest.dropLast)
          else s
        | _ => s
      if s == "-" || s == "" || s == "n/a" || s == "N/A" || s == "#N/A" || s == "#VALUE!"
      then Option.none
      else pyFloat s

/-- `_to_str_ref`: reference numbers as strings (strip `.0` from floats). -/
def toStrRef (v : Cell) : Option String :=
  if isBlankC v then Option.none
  else
    match v with
    | Cell.num q =>
      if q.den = 1 then some (toString q.num) else
        (if clean v == "" then Option.none else some (clean v))
    | _ => if clean v == "" then Option.none else some (clean v)

/-- `_SOA_SECTION_KW`. -/
def soaSectionKw : List String :=
  ["credits usable", "totalcare charges", "totalcare",
   "customer responsible charges", "spare parts charges",
   "late payment interest", "other charges", "other credits"]

/-- Is the cell a Python `int`/`float`? -/
def isNumCell : Cell → Bool
  | Cell.num _ => true
  | _ => false

/-- `_soa_is_section_header`: the label when `row[0]` is a non-blank,
non-numeric string containing a section keyword (its `col_map` argument is
unused in the source; a grid row is never empty, the empty case is mapped
to no label). -/
def soaIsSectionHeader (row : List Cell) : Option String :=
  match row with
  | [] => Option.none
  | v0 :: _ =>
    if isBlankC v0 || isNumCell v0 then Option.none
    else
      let s := clean v0
      if soaSectionKw.any (fun kw => strHasSub (lowStr s) kw) then some s
      else Option.none

/-! ### File-type detection (`detect_file_type`) -/

/-- `_TYPE_SIGNALS` (insertion order preserved). -/
def typeSignalsA : List (String × List String) :=
  [("SOA",
    ["statement of account", "lpi rate", "lpi rate >",
     "customer name:", "totalcare charges", "customer responsible charges",
     "spare parts charges", "late payment interest", "credits usable",
     "total overdue"]),
   ("INVOICE_LIST",
    ["reference key 3", "amount in doc. curr.", "net due date", "document date",
     "document currency"]),
   ("OPPORTUNITY_TRACKER",
    ["opp log sheet", "type of opportunity", "external probability",
     "internal complexity", "evaluation level", "term benefit", "away day date",
     "ict estimates", "commercial optimisation", "profit opportunities tracker",
     "account management evaluations", "cash reciepts", "in year profit",
     "existing deal", "new deal", "resource prioritization",
     "contracting actuals", "financial criteria"]),
   ("SHOP_VISIT",
    ["event item part number", "event item serial number", "action code",
     "rework level", "service event number", "shopvisit_type", "shopvisit_location"]),
   ("SVRG_MASTER",
    ["trent 900 guarantee", "trent 900 guarantee administration",
     "claims summary", "event entry", "hptb", "svrg", "esvrg",
     "enhanced guarantees"])]

/-- The keys of the scores dictionary, in insertion order. -/
def typeNames : List String :=
  typeSignalsA.map Prod.fst

/-- The signal list of one type. -/
def signalsOf (t : String) : List String :=
  (List.lookup t typeSignalsA).getD []

/-- `_SHEET_NAME_BOOSTS`. -/
def sheetNameBoostsA : List (String × String) :=
  [("soa", "SOA"), ("soa summary", "SOA"), ("soa 26.1", "SOA"),
   ("l2", "OPPORTUNITY_TRACKER"), ("l3", "OPPORTUNITY_TRACKER"),
   ("mea log", "OPPORTUNITY_TRACKER"), ("opps and threats", "OPPORTUNITY_TRACKER"),
   ("date input", "OPPORTUNITY_TRACKER"), ("count", "OPPORTUNITY_TRACKER"),
   ("sum", "OPPORTUNITY_TRACKER"), ("timeline", "OPPORTUNITY_TRACKER"),
   ("input", "OPPORTUNITY_TRACKER"), ("cover", "OPPORTUNITY_TRACKER"),
   ("menu", "SVRG_MASTER"), ("claims summary", "SVRG_MASTER"),
   ("event entry", "SVRG_MASTER"),
   ("glossary_2", "SHOP_VISIT")]

/-- The sheet-name-starts-with boosts table. -/
def sheetStartBoostsA : List (String × String) :=
  [("report page", "SHOP_VISIT"), ("soa ", "SOA")]

/-- A loaded workbook: sheet name to raw grid. -/
abbrev Workbook := List (String × List (List Cell))

/-- The lower-cased text blob of a sheet's first 25 rows. -/
def sheetBlob (df : List (List Cell)) : String :=
  String.intercalate " "
    (((df.take 25).flatten.filter (fun v => !isBlankC v)).map
      (fun v => lowStr (clean v)))

/-- The score contributed by one sheet to one type. -/
def sheetScoreFor (t : String) (sheetName : String) (df : List (List Cell)) : Nat :=
  let sn := pyTrim (lowStr sheetName)
  (if List.lookup sn sheetNameBoostsA == some t then 8 else 0)
    + 8 * (sheetStartBoostsA.filter (fun p => strStarts sn p.1 && p.2 == t)).length
    + (signalsOf t).countP (fun sig => strHasSub (sheetBlob df) sig)

/-- `scores[t]` after all sheets are scanned. -/
def scoreOf (sheets : Workbook) (t : String) : Nat :=
  (sheets.map (fun p => sheetScoreFor t p.1 p.2)).sum

/-- Python `max(keys, key=f)`: the first key attaining the maximum. -/
def pyMaxKey (f : String → Nat) (keys : List String) : String :=
  match keys with
  | [] => ""
  | k :: ks => ks.foldl (fun best t => if f best < f t then t else best) k

/-- `detect_file_type`. -/
def detectFileType (sheets : Workbook) : String :=
  let best := pyMaxKey (scoreOf sheets) typeNames
  if 0 < scoreOf sheets best then best else "UNKNOWN"

/-! ### Column-role mapping (`_map_soa_columns` / `_map_generic_columns`) -/

/-- `_SOA_COL_ALIASES` (insertion order preserved). -/
def soaColAliases : List (String × List String) :=
  [("company_code", ["company code", "co code", "company"]),
   ("account", ["account"]),
   ("reference", ["reference", "ref no", "doc no", "document no", "invoice no"]),
   ("doc_date", ["document date", "doc date", "posting date", "inv date"]),
   ("due_date", ["net due date", "due date", "payment date", "net due"]),
   ("amount", ["amount in doc", "amount", "balance", "value"]),
   ("currency", ["curr", "currency"]),
   ("text", ["text", "description", "narrative", "detail"]),
   ("assignment", ["assignment", "assign", "reference key 1", "ref key 1"]),
   ("rr_comments", ["r-r comments", "rr comments", "rr note", "comments"]),
   ("action_owner", ["action owner", "action", "awaiting approval", "owner"]),
   ("days_late", ["days late", "days overdue", "overdue days"]),
   ("customer_comments", ["eth comments", "customer comments", "airline comments",
     "customer note"]),
   ("po_reference", ["eth po reference", "eth po", "po reference", "po ref",
     "purchase order", "po number"]),
   ("lpi_cumulated", ["lpi cumulated", "lpi cum", "cumulated lpi"])]

/-- `_SOA_POSITIONAL`. -/
def soaPositional : List (String × Nat) :=
  [("company_code", 0), ("account", 1), ("reference", 2), ("doc_date", 3),
   ("due_date", 4), ("amount", 5), ("currency", 6), ("text", 7),
   ("assignment", 8), ("rr_comments", 9), ("action_owner", 10),
   ("days_late", 11), ("customer_comments", 12), ("po_reference", 13),
   ("lpi_cumulated", 14)]

/-- Does header column `i` exist, hold a non-blank cell, and contain one of
the aliases in its lower-cased text? -/
def colMatches (hdr : List Cell) (als : List String) (i : Nat) : Bool :=
  match hdr.get? i with
  | some v => !isBlankC v && als.any (fun al => strHasSub (lowStr (clean v)) al)
  | Option.none => false

/-- First index `≥ i` satisfying `p`, among the next `fuel` indices. -/
def firstIdxFrom (p : Nat → Bool) : Nat → Nat → Option Nat
  | _, 0 => Option.none
  | i, fuel + 1 => if p i then some i else firstIdxFrom p (i + 1) fuel

/-- The column claimed by one field: the left-most matching column not
already claimed. -/
def claimCol (hdr : List Cell) (als : List String) (claimed : List Nat) : Option Nat :=
  firstIdxFrom (fun i => colMatches hdr als i && !(claimed.contains i)) 0 hdr.length

/-- The first-claim-per-column mapping pass shared by `_map_soa_columns`
and `_map_generic_columns`: fields in priority order, each claiming the
first matching unclaimed column. -/
def runClaimMap (hdr : List Cell) : List (String × List String) → List Nat → List (String × Nat)
  | [], _ => []
  | (f, als) :: rest, claimed =>
    match claimCol hdr als claimed with
    | some c => (f, c) :: runClaimMap hdr rest (c :: claimed)
    | Option.none => runClaimMap hdr rest claimed

/-- `_map_generic_columns`. -/
def mapGenericColumns (hdr : List Cell) (aliases : List (String × List String)) :
    List (String × Nat) :=
  runClaimMap hdr aliases []

/-- `_map_soa_columns`: the claim pass, then positional defaults for
unmapped fields. -/
def mapSoaColumns (hdr : List Cell) : List (String × Nat) :=
  let m := runClaimMap hdr soaColAliases []
  m ++ soaPositional.filter (fun p => (List.lookup p.1 m).isNone)

/-! ### `_parse_unknown` and `parse_file` -/

/-- A serialised cell value inside an `_parse_unknown` record. -/
inductive JVal where
  | s (v : String)
  | i (v : Int)
  | q (v : ℚ)
deriving DecidableEq, Repr

/-- Upsert into a record keyed by header name (Python dict assignment). -/
def assignJ (m : List (String × JVal)) (k : String) (x : JVal) : List (String × JVal) :=
  match m with
  | [] => [(k, x)]
  | (k', v) :: rest => if k' == k then (k', x) :: rest else (k', v) :: assignJ rest k x

/-- The generic per-sheet extraction of `_parse_unknown`. -/
structure SheetData where
  headers : List String
  rows : List (List (String × JVal))
  rowCount : Nat
deriving DecidableEq, Repr

/-- The serialisation applied to one kept cell in `_parse_unknown`. -/
def unknownSer : Cell → JVal
  | Cell.date dt => JVal.s (isoDate dt)
  | Cell.num q => if q.den = 1 then JVal.i q.num else JVal.q q
  | Cell.str s => JVal.s s
  | Cell.none => JVal.s ""

/-- `_parse_unknown` on one sheet. -/
def unknownSheet (df : List (List Cell)) : SheetData :=
  let hdrIdx :=
    (((df.take 10).enum.filter (fun p => 3 ≤ (nonBlankVals p.2).length)).head?.map
      Prod.fst).getD 0
  let headers :=
    (df.getD hdrIdx []).enum.map
      (fun p => if clean p.2 == "" then "col_" ++ toString p.1 else clean p.2)
  let rows :=
    ((df.drop (hdrIdx + 1)).filter (fun row => !(nonBlankVals row).isEmpty)).foldl
      (fun acc row =>
        let rec' :=
          headers.enum.foldl
            (fun rec' p =>
              if p.1 < row.length ∧ !isBlankC (row.getD p.1 Cell.none) then
                assignJ rec' p.2 (unknownSer (row.getD p.1 Cell.none))
              else rec')
            []
        if rec'.isEmpty then acc else acc ++ [rec'])
      []
  ⟨headers, rows, rows.length⟩

/-- The canonical per-file result: `file_type`, the always-present `errors`
list, and (for the generic path) the per-sheet payload.  The five typed
extractors return values of this shape as well (every one of them builds a
dict carrying `file_type` and `errors`). -/
structure ParseOut where
  fileType : String
  errors : List String
  sourceFile : Option String := Option.none
  sheets : List (String × SheetData) := []
deriving DecidableEq, Repr

/-- `_parse_unknown`. -/
def parseUnknown (allSheets : Workbook) (filename : String) : ParseOut :=
  { fileType := "UNKNOWN"
    errors := ["File type could not be determined; generic extraction applied."]
    sourceFile := some filename
    sheets := allSheets.map (fun p => (p.1, unknownSheet p.2)) }

/-- The five typed extractors, as seen from `parse_file`: each may raise
(`Except.error` carries the exception message). -/
structure Extractors where
  soa : Workbook → String → Except String ParseOut
  invoiceList : Workbook → String → Except String ParseOut
  oppTracker : Workbook → String → Except String ParseOut
  shopVisit : Workbook → String → Except String ParseOut
  svrg : Workbook → String → Except String ParseOut

/-- The outcome of the I/O boundary of `parse_file`: whether the base64
decode raised (when `is_base64`), and what `pd.ExcelFile` produced —
`none` when loading raised, otherwise the per-sheet grids that parsed. -/
structure FileInput where
  b64Fail : Bool
  rawSheets : Option Workbook
deriving DecidableEq, Repr

/-- `_load_workbook`: `sheets if sheets else None` — an empty workbook is
reported as a load failure. -/
def loadWorkbook (inp : FileInput) : Option Workbook :=
  match inp.rawSheets with
  | Option.none => Option.none
  | some l => if l.isEmpty then Option.none else some l

/-- `parse_file`: the public entry point.  Every branch yields a `ParseOut`
(the embedding is a total function — the source catches every exception of
the dispatch, and the load/decode helpers return sentinel values). -/
def parseFile (ex : Extractors) (inp : FileInput) (filename : String) : ParseOut :=
  if inp.b64Fail then { fileType := "ERROR", errors := ["base64 decode failed"] }
  else
    match loadWorkbook inp with
    | Option.none =>
      { fileType := "ERROR"
        errors := ["Could not load workbook — file may be corrupt or unsupported."]
        sourceFile := some filename }
    | some allSheets =>
      let ft := detectFileType allSheets
      let run : Except String ParseOut :=
        if ft == "SOA" then ex.soa allSheets filename
        else if ft == "INVOICE_LIST" then ex.invoiceList allSheets filename
        else if ft == "OPPORTUNITY_TRACKER" then ex.oppTracker allSheets filename
        else if ft == "SHOP_VISIT" then ex.shopVisit allSheets filename
        else if ft == "SVRG_MASTER" then ex.svrg allSheets filename
        else Except.ok (parseUnknown allSheets filename)
      match run with
      | Except.ok r => r
      | Except.error e =>
        let fb := parseUnknown allSheets filename
        { fb with
            errors := fb.errors ++
              ["Primary parser crashed: " ++ e ++ ". Fell back to generic extraction."]
            fileType := ft ++ "_FALLBACK" }

/-! ### Cross-file references (`_build_cross_references`) -/

/-- One linkable key emitted by `_extract_file_keys`. -/
structure KeyRec where
  keyType : String
  value : String
  file : String
  ftype : String
  ctx : List (String × String)
deriving DecidableEq, Repr

/-- One occurrence kept in the index (the key entry minus
`key_type`/`value`). -/
structure Occ where
  file : String
  ftype : String
  ctx : List (String × String)
deriving DecidableEq, Repr

/-- Strip `key_type`/`value` from a key entry. -/
def toOcc (k : KeyRec) : Occ :=
  ⟨k.file, k.ftype, k.ctx⟩

/-- A parsed-file result as consumed by the linking index. -/
structure FileRes where
  fileType : String
deriving DecidableEq, Repr

/-- Append an occurrence under a value key (`defaultdict(list)` append). -/
def appOcc (m : List (String × List Occ)) (k : String) (o : Occ) :
    List (String × List Occ) :=
  match m with
  | [] => [(k, [o])]
  | (k', l) :: rest =>
    if k' == k then (k', l ++ [o]) :: rest else (k', l) :: appOcc rest k o

/-- Append an occurrence under (key type, value). -/
def appOcc2 (m : List (String × List (String × List Occ))) (kt v : String) (o : Occ) :
    List (String × List (String × List Occ)) :=
  match m with
  | [] => [(kt, [(v, [o])])]
  | (k', vm) :: rest =>
    if k' == kt then (k', appOcc vm v o) :: rest else (k', vm) :: appOcc2 rest kt v o

/-- How many distinct source files an occurrence list spans. -/
def distinctFiles (occs : List Occ) : Nat :=
  ((occs.map Occ.file).dedup).length

/-- The output of `_build_cross_references`. -/
structure CrossOut where
  crossRefs : List (String × List (String × List Occ))
  totalKeys : Nat
  crossFileMatches : Nat
  matchesByType : List (String × Nat)
deriving DecidableEq, Repr

/-- All keys extracted from a session (files with `file_type = "ERROR"`
are skipped), in file order. -/
def sessionKeys (extract : FileRes → String → List KeyRec)
    (results : List (String × FileRes)) : List KeyRec :=
  results.foldl
    (fun acc p => if p.2.fileType == "ERROR" then acc else acc ++ extract p.2 p.1)
    []

/-- The grouped index `key_type → value → occurrences`. -/
def groupKeys (keys : List KeyRec) : List (String × List (String × List Occ)) :=
  keys.foldl (fun m k => appOcc2 m k.keyType k.value (toOcc k)) []

/-- `_build_cross_references`, with `_extract_file_keys` supplied as a
parameter (it is a per-format walk over the result payloads). -/
def buildCrossRefs (extract : FileRes → String → List KeyRec)
    (results : List (String × FileRes)) : CrossOut :=
  let keys := sessionKeys extract results
  let index := groupKeys keys
  let filtered :=
    index.map (fun p => (p.1, p.2.filter (fun q => 2 ≤ distinctFiles q.2)))
  let crossRefs := filtered.filter (fun p => !p.2.isEmpty)
  let matchesByType := crossRefs.map (fun p => (p.1, p.2.length))
  ⟨crossRefs, keys.length, (matchesByType.map Prod.snd).sum, matchesByType⟩

/-! ### Combined open items (`_build_combined_open_items`) -/

/-- An SOA section item or invoice-list item as consumed by the combined
view (only `amount` and `days_late` are inspected; the remaining fields
ride along opaquely). -/
structure OpenItem where
  amount : Option ℚ
  daysLate : Option ℚ
  fields : List (String × String)
deriving DecidableEq, Repr

/-- A section of an SOA result. -/
structure OpenSec where
  name : String
  items : List OpenItem
deriving DecidableEq, Repr

/-- A parsed-file result as consumed by the combined view. -/
structure OpenRes where
  fileType : String
  sections : List OpenSec
  items : List OpenItem
deriving DecidableEq, Repr

/-- One entry of the combined list, tagged with its provenance. -/
structure CombItem where
  item : OpenItem
  sourceFile : String
  sourceSection : Option String
  ftype : String
deriving DecidableEq, Repr

/-- `x.get("days_late") or 0`. -/
def dlKey (x : CombItem) : ℚ :=
  x.item.daysLate.getD 0

/-- `abs(x.get("amount") or 0)`. -/
def amtKey (x : CombItem) : ℚ :=
  |x.item.amount.getD 0|

/-- The sort order of the combined list: days late descending, then
absolute amount descending (the ascending order of the Python sort key
`(-(days_late or 0), -abs(amount or 0))`). -/
def combRel (x y : CombItem) : Prop :=
  dlKey y < dlKey x ∨ (dlKey x = dlKey y ∧ amtKey y ≤ amtKey x)

instance combRelDec : DecidableRel combRel := by
  intro x y
  unfold combRel
  infer_instance

instance combRelTotal : IsTotal CombItem combRel := by
  constructor
  intro x y
  rcases lt_trichotomy (dlKey x) (dlKey y) with h | h | h
  · exact Or.inr (Or.inl h)
  · rcases le_total (amtKey x) (amtKey y) with h2 | h2
    · exact Or.inr (Or.inr ⟨h.symm, h2⟩)
    · exact Or.inl (Or.inr ⟨h, h2⟩)
  · exact Or.inl (Or.inl h)

instance combRelTrans : IsTrans CombItem combRel := by
  constructor
  intro x y z hxy hyz
  rcases hxy with h1 | ⟨h1, h1'⟩ <;> rcases hyz with h2 | ⟨h2, h2'⟩
  · exact Or.inl (h2.trans h1)
  · exact Or.inl (h2 ▸ h1)
  · exact Or.inl (h1 ▸ h2)
  · exact Or.inr ⟨h1.trans h2, h2'.trans h1'⟩

/-- The unsorted combined list: SOA section items and invoice-list items
with a non-null amount, tagged with their provenance. -/
def collectOpen (results : List (String × OpenRes)) : List CombItem :=
  results.flatMap
    (fun p =>
      if p.2.fileType == "SOA" then
        p.2.sections.flatMap
          (fun sec =>
            (sec.items.filter (fun it => it.amount ≠ Option.none)).map
              (fun it => ⟨it, p.1, some sec.name, p.2.fileType⟩))
      else if p.2.fileType == "INVOICE_LIST" then
        (p.2.items.filter (fun it => it.amount ≠ Option.none)).map
          (fun it => ⟨it, p.1, Option.none, p.2.fileType⟩)
      else [])

/-- `_build_combined_open_items`: collect, then sort by the key
(`list.sort` is modelled by a sort producing an ordered permutation). -/
def buildCombinedOpenItems (results : List (String × OpenRes)) : List CombItem :=
  (collectOpen results).insertionSort combRel

end Univ

namespace Soa

/-! Embedding of `src/parser.py` (the statement-of-account module). -/

/-- The five formats tried by `_coerce_date`. -/
def soaFmts : List Univ.Fmt :=
  [⟨'/', Univ.FOrder.dmy, false⟩, ⟨'/', Univ.FOrder.mdy, false⟩,
   ⟨'-', Univ.FOrder.ymd, false⟩, ⟨'-', Univ.FOrder.dmy, false⟩,
   ⟨'.', Univ.FOrder.dmy, false⟩]

/-- `_coerce_amount`: float with `$`, commas and spaces removed; no
parenthesis-negative handling exists in this function. -/
def coerceAmount (v : Cell) : Option ℚ :=
  match v with
  | Cell.none => Option.none
  | Cell.num q => some q
  | _ =>
    let s := delChar ' ' (delChar '$' (delChar ',' (pyTrim (pyStr v))))
    if s == "" || s == "-" || s == "$ -" || s == "$-" then Option.none
    else pyFloat s

/-- `_coerce_date`: native datetimes pass through; otherwise the five
textual formats are tried; `None` on failure. -/
def coerceDate (v : Cell) : Option DateYMD :=
  match v with
  | Cell.none => Option.none
  | Cell.date dt => some dt
  | _ => Univ.scanFmts soaFmts (pyTrim (pyStr v))

/-- `SECTION_KEYWORDS`. -/
def sectionKeywords : List String :=
  ["charges", "credits", "credit", "totalcare", "familycare", "missioncare",
   "spare parts", "late payment", "interest", "customer respon",
   "customer responsibility", "usable", "offset"]

/-- `HEADER_KEYWORDS`. -/
def headerKeywords : List String :=
  ["company", "account", "reference", "document", "date", "amount", "curr",
   "text", "assignment", "arrangement", "comments", "status", "action",
   "days", "late", "lpi", "invoice", "type", "interest", "net due"]

/-- The cells of a row paired with their indices, Python `None`s removed
(`non_empty` in `_is_section_header`; note empty strings survive). -/
def enumNonNone (row : List Cell) : List (Nat × Cell) :=
  row.enum.filter (fun p => !isNoneCell p.2)

/-- `_is_section_header` (its `col_count` argument is unused in the source). -/
def isSectionHeader (rowValues : List Cell) (_colCount : Nat) : Bool :=
  match enumNonNone rowValues with
  | [] => false
  | (i0, v0) :: rest =>
    if ((i0, v0) :: rest).length > 3 then false
    else
      let text := lowStr (pyTrim (pyStr v0))
      if pyFloatOk (delChar ',' text) then false
      else
        let textClean := rstripColon text
        if textClean == "total" || textClean == "overdue" || textClean == "available credit"
            || textClean == "total overdue" || textClean == "net balance" then false
        else
          let twoCellSummary :=
            ((i0, v0) :: rest).length == 2 &&
            (match rest with
             | (_, v1) :: _ =>
               pyFloatOk (pyTrim (delChar '$' (delChar ',' (pyStr v1)))) &&
               ["total", "overdue", "credit", "balance"].any
                 (fun sw => strHasSub textClean sw)
             | [] => false)
          if twoCellSummary then false
          else sectionKeywords.any (fun kw => strHasSub text kw)

/-- The numeric guard inside `_is_header_row`:
`abs(float(str(v).replace(",","").replace("$","").strip())) > 100`, false
when `float` raises.  For a float cell `str` round-trips the value; an
infinite parse compares above 100, a NaN parse does not. -/
def hdrCellNumBig (v : Cell) : Bool :=
  match v with
  | Cell.num q => qltB 100 (qabs q)
  | _ =>
    let s := pyTrim (delChar '$' (delChar ',' (pyStr v)))
    match pyFloat s with
    | some n => qltB 100 (qabs n)
    | Option.none => pyFloatSpecial s && !(strHasSub (lowStr s) "nan")

/-- `_is_header_row`. -/
def isHeaderRow (rowValues : List Cell) : Bool :=
  let nonEmpty := rowValues.filter (fun v => !isNoneCell v)
  if nonEmpty.length < 4 then false
  else if nonEmpty.any hdrCellNumBig then false
  else
    let shortTexts :=
      (nonEmpty.filter (fun v => (pyTrim (pyStr v)).length < 35)).map
        (fun v => lowStr (pyTrim (pyStr v)))
    if shortTexts.length < 3 then false
    else
      let hits :=
        (shortTexts.map
          (fun t => (headerKeywords.filter (fun kw => strHasSub t kw)).length)).sum
      decide (3 ≤ hits)

/-- `_is_summary_row`: the summary label found in the row, if any. -/
def isSummaryRowS : List Cell → Option String
  | [] => Option.none
  | v :: rest =>
    if isNoneCell v then isSummaryRowS rest
    else
      let t := rstripColon (lowStr (pyTrim (pyStr v)))
      if t.length > 25 then isSummaryRowS rest
      else if t == "total" || t == "overdue" || t == "available credit"
          || t == "total overdue" || t == "net balance" then some t
      else isSummaryRowS rest

/-- `_normalise_header` on one cell: strip, collapse whitespace runs. -/
def collapseWsA : Bool → List Char → List Char
  | _, [] => []
  | prevWs, c :: cs =>
    if isPyWs c then
      (if prevWs then collapseWsA true cs else ' ' :: collapseWsA true cs)
    else c :: collapseWsA false cs

/-- `_normalise_header` on one cell (`None` is preserved). -/
def normaliseCell : Cell → Option String
  | Cell.none => Option.none
  | v => some (String.mk (collapseWsA false (trimList (pyStr v).data)))

/-- `_normalise_header`. -/
def normaliseHeader (raw : List Cell) : List (Option String) :=
  raw.map normaliseCell

/-- `_find_amount_col`. -/
def findAmountCol (header : List (Option String)) : Option Nat :=
  (header.enum.filter
    (fun p =>
      match p.2 with
      | some h => strHasSub (lowStr h) "amount"
      | Option.none => false)).head?.map Prod.fst

/-- Assign `mapping[key] = i` on an association list (later assignments
overwrite, order of first insertion kept, as for a Python dict). -/
def assignA (m : List (String × Nat)) (k : String) (i : Nat) : List (String × Nat) :=
  match m with
  | [] => [(k, i)]
  | (k', v) :: rest => if k' == k then (k', i) :: rest else (k', v) :: assignA rest k i

/-- The values view of an association list (`mapping.values()`). -/
def valuesA (m : List (String × Nat)) : List Nat :=
  m.map Prod.snd

/-- The `elif` chain of `_map_columns` applied to one lower-cased header
cell, yielding the semantic key it assigns (if any). -/
def mapColKey (h : String) : Option String :=
  if strHasSub h "amount" then some "amount"
  else if h == "curr" || h == "currency" then some "currency"
  else if strHasSub h "net due" || strHasSub h "due date" then some "due_date"
  else if strHasSub h "document" && strHasSub h "date" then some "doc_date"
  else if strHasSub h "document" && strHasSub h "no" then some "doc_no"
  else if strHasSub h "invoice date" then some "doc_date"
  else if h == "reference" || strHasSub h "reference" then some "reference"
  else if h == "company" || strHasSub h "company" then some "company"
  else if h == "account" || strHasSub h "account" then some "account"
  else if h == "text" then some "text"
  else if strHasSub h "assignment" || strHasSub h "arrangement" then some "assignment"
  else if strHasSub h "r-r comment" || strHasSub h "rr comment" then some "rr_comments"
  else if strHasSub h "action" || strHasSub h "reqd" then some "action_owner"
  else if strHasSub h "days" && strHasSub h "late" then some "days_late"
  else if strHasSub h "rata" then some "rata_date"
  else if strHasSub h "comment" && !strHasSub h "r-r" && !strHasSub h "rr" then
    some "customer_comments"
  else if strHasSub h "status" then some "status"
  else if strHasSub h "customer" && !strHasSub h "comment" && !strHasSub h "name"
      && !strHasSub h "n" && !strHasSub h "respon" then some "customer_name"
  else if strHasSub h "lpi" then some "lpi_cumulated"
  else if strHasSub h "etr" || strHasSub h "po" || strHasSub h "pr" then
    some "po_reference"
  else if strHasSub h "type" then some "type"
  else if strHasSub h "interest" || strHasSub h "calc" then some "interest_method"
  else Option.none

/-- `[str(h).lower() if h else "" for h in header]`. -/
def lowHeaderCells (header : List (Option String)) : List String :=
  header.map
    (fun h =>
      match h with
      | some s => if s == "" then "" else lowStr s
      | Option.none => "")

/-- First index (from `header`) whose lower-cased text contains `kw` and
is not already a value of the mapping (the fallback scans of `_map_columns`). -/
def fallbackIdx (hl : List String) (m : List (String × Nat)) (kw : String) : Option Nat :=
  (hl.enum.filter
    (fun p => strHasSub p.2 kw && !(valuesA m).contains p.1)).head?.map Prod.fst

/-- `_map_columns`. -/
def mapColumns (header : List (Option String)) : List (String × Nat) :=
  let hl := lowHeaderCells header
  let m :=
    hl.enum.foldl
      (fun m p =>
        if p.2 == "" then m
        else
          match mapColKey p.2 with
          | some k => assignA m k p.1
          | Option.none => m)
      []
  let m :=
    match List.lookup "doc_date" m with
    | some _ => m
    | Option.none =>
      match fallbackIdx hl m "date" with
      | some i => assignA m "doc_date" i
      | Option.none => m
  match List.lookup "due_date" m with
  | some _ => m
  | Option.none =>
    match fallbackIdx hl m "due" with
    | some i => assignA m "due_date" i
    | Option.none => m

/-- Python `int(q)`: truncation toward zero. -/
def truncQ (q : ℚ) : Int :=
  if q < 0 then -((-q).floor) else q.floor

/-- `_coerce_int`: `int(float(val))`, `None` on failure. -/
def coerceInt (v : Cell) : Option Int :=
  match v with
  | Cell.none => Option.none
  | Cell.num q => some (truncQ q)
  | Cell.str s =>
    match pyFloat s with
    | some q => some (truncQ q)
    | Option.none => Option.none
  | Cell.date _ => Option.none

/-! ### `parse_soa_workbook`

The workbook has been loaded by openpyxl into `all_rows : List (List Cell)`
(the loader is an external library, modelled at its boundary).  The only
impure input of the function is the clock: `datetime.now()` is modelled by
the explicit parameter `now : DateYMD` (day precision suffices because the
source truncates the anchor with `replace(hour=0, minute=0, second=0,
microsecond=0)`).  The anchor `metadata.get("report_date") or datetime.now()`
is re-evaluated per record in the source but is constant within one run, so
it is computed once here. -/

/-- The metadata dictionary built by pass 1 (absent key = `none`). -/
structure SoaMeta where
  title : Option String := Option.none
  customerName : Option String := Option.none
  customerId : Option String := Option.none
  contact : Option String := Option.none
  lpiRate : Option ℚ := Option.none
  avgDaysLate : Option Int := Option.none
  reportDate : Option DateYMD := Option.none
deriving DecidableEq, Repr

/-- `row.index(v)`: index of the first cell equal to `v`. -/
def pyIndexOf (row : List Cell) (v : Cell) : Nat :=
  row.findIdx (fun c => c == v)

/-- First non-`None` cell strictly after the first occurrence of `v`
(the label/value adjacency scan of pass 1). -/
def firstNonNoneAfter (row : List Cell) (v : Cell) : Option Cell :=
  ((row.drop (pyIndexOf row v + 1)).filter (fun c => !isNoneCell c)).head?

/-- The LPI-rate scan of pass 1: first cell with a percent literal
(divided by 100) or a coercible amount with `0 < abs < 1`. -/
def lpiScan : List Cell → Option ℚ
  | [] => Option.none
  | nv :: rest =>
    if isNoneCell nv then lpiScan rest
    else
      let nvStr := pyTrim (pyStr nv)
      let fromAmt : Option ℚ :=
        match coerceAmount nv with
        | some a => if qltB 0 (qabs a) && qltB (qabs a) 1 then some a else lpiScan rest
        | Option.none => lpiScan rest
      if strHasSub nvStr "%" then
        match pyFloat (delChar '%' nvStr) with
        | some f => some (mkRat f.num (f.den * 100))
        | Option.none => fromAmt
      else fromAmt

/-- The average-days-late scan of pass 1. -/
def avgScan : List Cell → Option Int
  | [] => Option.none
  | nv :: rest =>
    if isNoneCell nv then avgScan rest
    else
      match coerceInt nv with
      | some val => if 0 < val then some val else avgScan rest
      | Option.none => avgScan rest

/-- The report-date scan of pass 1 (first coercible date in the row). -/
def todayScan : List Cell → Option DateYMD
  | [] => Option.none
  | nv :: rest =>
    match coerceDate nv with
    | some d => some d
    | Option.none => todayScan rest

/-- Pass-1 updates triggered by one (non-`None`) cell. -/
def metaCell (row : List Cell) (joined : String) (meta : SoaMeta) (v : Cell) : SoaMeta :=
  if isNoneCell v then meta
  else
    let s := pyTrim (pyStr v)
    let sl := lowStr s
    let meta :=
      if strHasSub sl "statement of account" then { meta with title := some s } else meta
    let meta :=
      if strHasSub sl "customer" && (strHasSub sl "name" || strHasSub sl ":")
          && meta.customerName == Option.none then
        match firstNonNoneAfter row v with
        | some nv => { meta with customerName := some (pyTrim (pyStr nv)) }
        | Option.none => meta
      else meta
    let meta :=
      if (strHasSub sl "customer" && (strHasSub sl "#" || (strHasSub sl "n" && strHasSub sl ":")))
          || strHasSub sl "customer n" then
        match firstNonNoneAfter row v with
        | some nv => { meta with customerId := some (pyTrim (pyStr nv)) }
        | Option.none => meta
      else meta
    let meta :=
      if strHasSub sl "contact" then
        match firstNonNoneAfter row v with
        | some nv => { meta with contact := some (pyTrim (pyStr nv)) }
        | Option.none => meta
      else meta
    let meta :=
      if strHasSub sl "lpi" || strHasSub sl "lp ratio" || strHasSub sl "lp rate" then
        match lpiScan row with
        | some r => { meta with lpiRate := some r }
        | Option.none => meta
      else meta
    let meta :=
      if strHasSub sl "average days late" || strHasSub sl "avg days late"
          || strHasSub joined "average days late" then
        match avgScan row with
        | some n => { meta with avgDaysLate := some n }
        | Option.none => meta
      else meta
    if strHasSub sl "today" then
      match todayScan row with
      | some d => { meta with reportDate := some d }
      | Option.none => meta
    else meta

/-- Pass 1: scalar metadata from the first 15 rows. -/
def soaMetadata (allRows : List (List Cell)) : SoaMeta :=
  (allRows.take 15).foldl
    (fun meta row =>
      let joined :=
        lowStr (String.intercalate " "
          ((row.filter (fun v => !isNoneCell v)).map pyStr))
      row.foldl (metaCell row joined) meta)
    {}

/-- Pass-2 state: master header (normalised), its row index, section starts. -/
structure Pass2St where
  masterHeader : Option (List (Option String))
  masterIdx : Option Nat
  starts : List (String × Nat)
deriving Repr

/-- Pass 2: identify the master header row and the section boundaries. -/
def pass2 (allRows : List (List Cell)) : Pass2St :=
  allRows.enum.foldl
    (fun st p =>
      if isHeaderRow p.2 && st.masterHeader == Option.none then
        { st with masterHeader := some (normaliseHeader p.2), masterIdx := some p.1 }
      else if isSectionHeader p.2 20 then
        match (p.2.filter (fun v => !isNoneCell v)).head? with
        | some v0 => { st with starts := st.starts ++ [(pyTrim (pyStr v0), p.1)] }
        | Option.none => st
      else st)
    ⟨Option.none, Option.none, []⟩

/-- Attach the end row to each section start (next start, or end of sheet). -/
def withEnds (len : Nat) : List (String × Nat) → List (String × Nat × Nat)
  | [] => []
  | [(n, s)] => [(n, s, len)]
  | (n, s) :: (n', s') :: rest => (n, s, s') :: withEnds len ((n', s') :: rest)

/-- One extracted statement line (`record` in pass 3). -/
structure SoaRecord where
  secName : String
  amount : ℚ
  company : Option String
  account : Option String
  reference : Option String
  docDate : Option DateYMD
  dueDate : Option DateYMD
  currency : Option String
  text : Option String
  assignment : Option String
  rrComments : Option String
  actionOwner : Option String
  daysLate : Option Int
  customerComments : Option String
  status : Option String
  poReference : Option String
  lpiCumulated : Option String
  typeStr : Option String
  docNo : Option String
  interestMethod : Option String
  customerName : Option String
  entryType : String
deriving DecidableEq, Repr

/-- `_get(key)` as a string field. -/
def getS (row : List Cell) (colMap : List (String × Nat)) (key : String) : Option String :=
  match List.lookup key colMap with
  | Option.none => Option.none
  | some ci =>
    match row.get? ci with
    | Option.none => Option.none
    | some Cell.none => Option.none
    | some v => some (pyTrim (pyStr v))

/-- `_get(key, "date")`. -/
def getD (row : List Cell) (colMap : List (String × Nat)) (key : String) : Option DateYMD :=
  match List.lookup key colMap with
  | Option.none => Option.none
  | some ci =>
    match row.get? ci with
    | Option.none => Option.none
    | some Cell.none => Option.none
    | some v => coerceDate v

/-- `_get(key, int)`. -/
def getI (row : List Cell) (colMap : List (String × Nat)) (key : String) : Option Int :=
  match List.lookup key colMap with
  | Option.none => Option.none
  | some ci =>
    match row.get? ci with
    | Option.none => Option.none
    | some Cell.none => Option.none
    | some v => coerceInt v

/-- Keywords that promote a comment field to the unified Status. -/
def statusKeywords : List String :=
  ["ready for payment", "under approval", "under review", "dispute", "ongoing",
   "et to process", "payment pending", "invoice sent", "credit note", "approved",
   "transfer", "invoice approved", "pending for payment"]

/-- Python truthiness of an optional string (`None` and `""` are falsy). -/
def strFalsy : Option String → Bool
  | Option.none => true
  | some t => t == ""

/-- The fallback amount scan of pass 3 (first cell whose coerced amount
is meaningful away from the days-late column). -/
def amtFallbackScan (colMap : List (String × Nat)) : List (Nat × Cell) → Option ℚ
  | [] => Option.none
  | (ci, cv) :: rest =>
    match coerceAmount cv with
    | some a =>
      if qltB (mkRat 1 100) (qabs a) &&
          (qltB 100 (qabs a) ||
            ((List.lookup "days_late" colMap).isSome &&
              !(List.lookup "days_late" colMap == some ci))) then
        some a
      else amtFallbackScan colMap rest
    | Option.none => amtFallbackScan colMap rest

/-- Build one record from a data row (the body after `amt_val` is known).
`anchor` is `metadata.get("report_date") or datetime.now()` at midnight. -/
def buildRecord (secName : String) (colMap : List (String × Nat)) (anchor : DateYMD)
    (row : List Cell) (amtVal : ℚ) : SoaRecord :=
  let daysLate0 := getI row colMap "days_late"
  let dueDate := getD row colMap "due_date"
  let daysLate :=
    match daysLate0 with
    | some n => some n
    | Option.none =>
      match dueDate with
      | some due =>
        if ordinalD due < ordinalD anchor then
          some ((ordinalD anchor : Int) - (ordinalD due : Int))
        else some 0
      | Option.none => Option.none
  let rrComments := getS row colMap "rr_comments"
  let actionOwner := getS row colMap "action_owner"
  let customerComments := getS row colMap "customer_comments"
  let status0 := getS row colMap "status"
  let status1 :=
    if strFalsy status0 then
      match
        [rrComments, actionOwner, customerComments].filter
          (fun v =>
            match v with
            | some t =>
              !(t == "") && statusKeywords.any (fun kw => strHasSub (lowStr t) kw)
            | Option.none => false)
      with
      | v :: _ => v
      | [] => status0
    else status0
  let status2 :=
    if strFalsy status1 then
      match rrComments with
      | some t => if t == "" then status1 else some t
      | Option.none => status1
    else status1
  { secName := secName
    amount := amtVal
    company := getS row colMap "company"
    account := getS row colMap "account"
    reference := getS row colMap "reference"
    docDate := getD row colMap "doc_date"
    dueDate := dueDate
    currency := getS row colMap "currency"
    text := getS row colMap "text"
    assignment := getS row colMap "assignment"
    rrComments := rrComments
    actionOwner := actionOwner
    daysLate := daysLate
    customerComments := customerComments
    status := status2
    poReference := getS row colMap "po_reference"
    lpiCumulated := getS row colMap "lpi_cumulated"
    typeStr := getS row colMap "type"
    docNo := getS row colMap "doc_no"
    interestMethod := getS row colMap "interest_method"
    customerName := getS row colMap "customer_name"
    entryType := if qltB amtVal 0 then "Credit" else "Charge" }

/-- Per-section data (`sections[sec_name]`). -/
structure SoaSecData where
  header : Option (List (Option String))
  colmap : List (String × Nat)
  rows : List SoaRecord
  totals : List (String × ℚ)
deriving DecidableEq, Repr

/-- Upsert into the totals dictionary. -/
def assignQ (m : List (String × ℚ)) (k : String) (x : ℚ) : List (String × ℚ) :=
  match m with
  | [] => [(k, x)]
  | (k', v) :: rest => if k' == k then (k', x) :: rest else (k', v) :: assignQ rest k x

/-- First coercible amount in a row (summary-row value capture). -/
def firstAmt : List Cell → Option ℚ
  | [] => Option.none
  | v :: rest =>
    match coerceAmount v with
    | some a => some a
    | Option.none => firstAmt rest

/-- Mutable state of the pass-3 row loop. -/
structure RowLoopSt where
  header : Option (List (Option String))
  colMap : List (String × Nat)
  amtIdx : Option Nat
  dataRows : List SoaRecord
  totals : List (String × ℚ)
deriving Repr

/-- `col_map.get("amount")`, falling back to `_find_amount_col` (which is
then recorded in the map), as done both at section setup and on a
mid-section header row. -/
def amountIdxOf (header : Option (List (Option String))) (colMap : List (String × Nat)) :
    Option Nat × List (String × Nat) :=
  match List.lookup "amount" colMap with
  | some i => (some i, colMap)
  | Option.none =>
    match header with
    | some h =>
      if h.isEmpty then (Option.none, colMap)
      else
        match findAmountCol h with
        | some i => (some i, assignA colMap "amount" i)
        | Option.none => (Option.none, colMap)
    | Option.none => (Option.none, colMap)

/-- One iteration of the pass-3 row loop. -/
def rowStep (secName : String) (anchor : DateYMD) (st : RowLoopSt) (row : List Cell) :
    RowLoopSt :=
  match isSummaryRowS row with
  | some t =>
    (match firstAmt row with
     | some amt => { st with totals := assignQ st.totals t amt }
     | Option.none => st)
  | Option.none =>
    if isSectionHeader row 20 then st
    else if isHeaderRow row then
      let header := some (normaliseHeader row)
      let colMap := mapColumns (normaliseHeader row)
      let (amtIdx, colMap) := amountIdxOf header colMap
      { st with header := header, colMap := colMap, amtIdx := amtIdx }
    else
      let amtVal :=
        match st.amtIdx with
        | some i =>
          if i < row.length then coerceAmount (row.getD i Cell.none) else Option.none
        | Option.none => Option.none
      let amtVal :=
        match amtVal with
        | some a => some a
        | Option.none => amtFallbackScan st.colMap row.enum
      match amtVal with
      | Option.none => st
      | some a =>
        { st with dataRows := st.dataRows ++ [buildRecord secName st.colMap anchor row a] }

/-- Pass 3 for one section: local-header discovery, then the row loop. -/
def parseSection (allRows : List (List Cell)) (master : Option (List (Option String)))
    (masterIdx : Option Nat) (anchor : DateYMD) (sec : String × Nat × Nat) :
    SoaSecData :=
  let (_, start, stop) := sec
  let local? :=
    (([start + 1, start + 2, start + 3].filter (fun ri => ri < stop)).filter
      (fun ri => isHeaderRow (allRows.getD ri []))).head?
  let (header, headerIdx) :=
    match local? with
    | some ri => (some (normaliseHeader (allRows.getD ri [])), some ri)
    | Option.none => (master, masterIdx)
  let colMap :=
    match header with
    | some h => if h.isEmpty then [] else mapColumns h
    | Option.none => []
  let (amtIdx, colMap) := amountIdxOf header colMap
  let dataStart :=
    match headerIdx with
    | some hi => if hi ≠ 0 ∧ start ≤ hi then hi + 1 else start + 1
    | Option.none => start + 1
  let rows := (allRows.drop dataStart).take (stop - dataStart)
  let st :=
    rows.foldl (rowStep sec.1 anchor)
      ⟨header, colMap, amtIdx, [], []⟩
  ⟨st.header, st.colMap, st.dataRows, st.totals⟩

/-- Upsert into the sections dictionary. -/
def assignSec (m : List (String × SoaSecData)) (k : String) (x : SoaSecData) :
    List (String × SoaSecData) :=
  match m with
  | [] => [(k, x)]
  | (k', v) :: rest => if k' == k then (k', x) :: rest else (k', v) :: assignSec rest k x

/-- The grand-totals dictionary. -/
structure GrandTotals where
  totalOverdue : Option ℚ := Option.none
  sectionOverdue : List (String × ℚ) := []
  availableCredits : List (String × ℚ) := []
  sectionTotals : List (String × ℚ) := []
  totalCharges : Option ℚ := Option.none
  totalCredits : Option ℚ := Option.none
  netBalance : Option ℚ := Option.none
  itemCount : Option Nat := Option.none
deriving DecidableEq, Repr

/-- Fold the per-section totals into the grand-totals dictionary. -/
def grandFromSections (sections : List (String × SoaSecData)) : GrandTotals :=
  sections.foldl
    (fun g p =>
      p.2.totals.foldl
        (fun g kv =>
          if strHasSub kv.1 "total overdue" then { g with totalOverdue := some kv.2 }
          else if strHasSub kv.1 "overdue" then
            { g with sectionOverdue := assignQ g.sectionOverdue p.1 kv.2 }
          else if strHasSub kv.1 "available credit" then
            { g with availableCredits := assignQ g.availableCredits p.1 kv.2 }
          else if strHasSub kv.1 "total" then
            { g with sectionTotals := assignQ g.sectionTotals p.1 kv.2 }
          else g)
        g)
    {}

/-- The full parse result. -/
structure SoaResult where
  metadata : SoaMeta
  sections : List (String × SoaSecData)
  allItems : List SoaRecord
  grand : GrandTotals
deriving DecidableEq, Repr

/-- `parse_soa_workbook` (see the section comment for the modelling of the
loader and the clock). -/
def parseSoaWorkbook (allRows : List (List Cell)) (now : DateYMD) : SoaResult :=
  let metadata := soaMetadata allRows
  let anchor := metadata.reportDate.getD now
  let st2 := pass2 allRows
  let secInfo := withEnds allRows.length st2.starts
  let parsed :=
    secInfo.map (fun sec => (sec.1, parseSection allRows st2.masterHeader st2.masterIdx anchor sec))
  let sections := parsed.foldl (fun m p => assignSec m p.1 p.2) []
  let allItems := parsed.foldl (fun acc p => acc ++ p.2.rows) []
  let g := grandFromSections sections
  let g :=
    if allItems.isEmpty then g
    else
      let charges := ((allItems.filter (fun r => 0 < r.amount)).map (·.amount)).sum
      let credits := ((allItems.filter (fun r => r.amount < 0)).map (·.amount)).sum
      let net := (allItems.map (·.amount)).sum
      let g := { g with totalCharges := some charges, totalCredits := some credits,
                        netBalance := some net, itemCount := some allItems.length }
      match g.totalOverdue with
      | some _ => g
      | Option.none =>
        let overdueSum := (g.sectionOverdue.map Prod.snd).sum
        if overdueSum ≠ 0 then { g with totalOverdue := some overdueSum } else g
  ⟨metadata, sections, allItems, g⟩

end Soa

/-! ## Spec-side vocabulary

Counting and first-cell notions used to state the claims (the spec speaks
of "non-blank cells"; the source sometimes counts non-`None` cells). -/

/-- Number of non-blank cells of a row (blank = `None`/`NaN`/whitespace). -/
def nonBlankCount (row : List Cell) : Nat :=
  (row.filter (fun v => !Univ.isBlankC v)).length

/-- Number of cells of a row that are not Python `None`. -/
def nonNoneCount (row : List Cell) : Nat :=
  (row.filter (fun v => !isNoneCell v)).length

/-- The first non-`None` cell of a row. -/
def firstNonNoneCell (row : List Cell) : Option Cell :=
  (row.filter (fun v => !isNoneCell v)).head?

/-- The first non-blank cell of a row. -/
def firstNonBlankCell (row : List Cell) : Option Cell :=
  (row.filter (fun v => !Univ.isBlankC v)).head?

/-- Lookup under (key type, value) in a nested association list. -/
def lookup2 (m : List (String × List (String × List Univ.Occ))) (kt v : String) :
    Option (List Univ.Occ) :=
  (List.lookup kt m).bind (List.lookup v)

/-! ## Concrete fixtures used by witnesses and counterexamples -/

/-- The header row of the column-mapper acceptance test. -/
def demoInvHeader : List Cell :=
  [Cell.str "Amount in Doc. Curr.", Cell.str "Currency"]

/-- A minimal statement workbook with a due date but no days-late column
and no report date: the extracted days-late value depends on the clock. -/
def demoSoaWb : List (List Cell) :=
  [[Cell.str "TotalCare Charges", Cell.none, Cell.none, Cell.none, Cell.none],
   [Cell.str "Company", Cell.str "Account", Cell.str "Reference",
    Cell.str "Due Date", Cell.str "Amount"],
   [Cell.num 100, Cell.num 200, Cell.str "INV1", Cell.date ⟨2026, 1, 2⟩,
    Cell.num 500]]

/-- The same workbook with an explicit report date row (`Today`). -/
def demoSoaWbToday : List (List Cell) :=
  [[Cell.str "Today", Cell.date ⟨2026, 1, 5⟩, Cell.none, Cell.none, Cell.none],
   [Cell.str "TotalCare Charges", Cell.none, Cell.none, Cell.none, Cell.none],
   [Cell.str "Company", Cell.str "Account", Cell.str "Reference",
    Cell.str "Due Date", Cell.str "Amount"],
   [Cell.num 100, Cell.num 200, Cell.str "INV1", Cell.date ⟨2026, 1, 2⟩,
    Cell.num 500]]

/-- A row with a single non-blank cell (three keyword hits in one cell)
padded with empty strings, which the header detector accepts. -/
def demoHdrRow : List Cell :=
  [Cell.str "Document Date Amount", Cell.str "", Cell.str "", Cell.str ""]

/-- A row with one non-None cell but a large numeric value. -/
def demoBigRow : List Cell :=
  [Cell.str "amount", Cell.str "date", Cell.str "reference", Cell.str "500"]

/-- A sparse row (three non-None cells). -/
def demoSparseRow : List Cell :=
  [Cell.str "5000", Cell.none, Cell.str "x", Cell.none]

/-- A one-cell section title row. -/
def demoSecRow : List Cell :=
  [Cell.str "TotalCare Charges"]

/-- A row with five non-blank cells whose first cell is a section label. -/
def demoWideRow : List Cell :=
  [Cell.str "TotalCare Charges", Cell.str "a", Cell.str "b", Cell.str "c",
   Cell.str "d"]

/-- Extractors that always raise (exercising the fallback path). -/
def exRaise : Univ.Extractors :=
  ⟨fun _ _ => Except.error "boom", fun _ _ => Except.error "boom",
   fun _ _ => Except.error "boom", fun _ _ => Except.error "boom",
   fun _ _ => Except.error "boom"⟩

/-- A key extraction emitting one invoice reference per file. -/
def demoExtract : Univ.FileRes → String → List Univ.KeyRec :=
  fun _ fn => [⟨"invoice_ref", "1820146074", fn, "SOA", []⟩]

/-- A two-file session. -/
def demoTwoFiles : List (String × Univ.FileRes) :=
  [("A.xlsx", ⟨"SOA"⟩), ("B.xlsx", ⟨"SOA"⟩)]

/-- A one-file session. -/
def demoOneFile : List (String × Univ.FileRes) :=
  [("A.xlsx", ⟨"SOA"⟩)]

/-- An open item with a non-null amount. -/
def demoOpenItem : Univ.OpenItem :=
  ⟨some 500, some 3, []⟩

/-- A one-file batch for the combined-open-items witness. -/
def demoOpenResults : List (String × Univ.OpenRes) :=
  [("A.xlsx", ⟨"SOA", [⟨"TotalCare Charges", [demoOpenItem]⟩], []⟩)]

/-! ## Helper lemmas -/

theorem scanFmts_eq_none {fmts : List Univ.Fmt} {s : String} :
    Univ.scanFmts fmts s = Option.none ↔ ∀ f ∈ fmts, Univ.runFmt f s = Option.none := by
  induction fmts with
  | nil => simp [Univ.scanFmts]
  | cons f rest ih =>
    unfold Univ.scanFmts
    cases hf : Univ.runFmt f s with
    | none => simp [hf, ih]
    | some dt => simp [hf]

theorem soaFmts_subset : ∀ f ∈ Soa.soaFmts, f ∈ Univ.univFmts := by
  decide

/-- For a non-`None`, non-native cell the universal cleaner agrees with
`str(v).strip()`. -/
theorem clean_eq_trim {v : Cell} (h : v ≠ Cell.none) :
    Univ.clean v = pyTrim (pyStr v) := by
  cases v with
  | none => exact absurd rfl h
  | str s => rfl
  | num q => rfl
  | date dt => rfl

/-! ## Claim theorems -/

/-- **C3, counterexample.**  The claim says the amount coercer maps the
parenthesis-wrapped `"(1,234.56)"` to `-1234.56` in every case; the
statement-module coercer `_coerce_amount` has no parenthesis handling and
returns `None` on this exact input. -/
theorem c3_amount_coercion_counterexample :
    ¬ (Soa.coerceAmount (Cell.str "(1,234.56)") = some (-1234.56 : ℚ)) := by
  have h0 : Soa.coerceAmount (Cell.str "(1,234.56)") = Option.none := rfl
  simp [h0]

/-- **C3, amended.**  The universal coercer `_to_float` maps
`"$1,234.56"` to 1234.56, `"(1,234.56)"` to -1234.56, and the placeholders
`"-"`, `"$ -"`, `"N/A"` to null, stripping currency symbols, separators and
whitespace; `_coerce_amount` does the same except that a parenthesis-wrapped
number is not recognised and coerces to null rather than a negative. -/
theorem c3_amount_coercion_amended :
    Univ.toFloat (Cell.str "$1,234.56") = some (1234.56 : ℚ) ∧
    Univ.toFloat (Cell.str "(1,234.56)") = some (-1234.56 : ℚ) ∧
    Univ.toFloat (Cell.str "-") = Option.none ∧
    Univ.toFloat (Cell.str "$ -") = Option.none ∧
    Univ.toFloat (Cell.str "N/A") = Option.none ∧
    Univ.toFloat (Cell.str "  $ 1,234.56 ") = some (1234.56 : ℚ) ∧
    Soa.coerceAmount (Cell.str "$1,234.56") = some (1234.56 : ℚ) ∧
    Soa.coerceAmount (Cell.str "-") = Option.none ∧
    Soa.coerceAmount (Cell.str "$ -") = Option.none ∧
    Soa.coerceAmount (Cell.str "N/A") = Option.none ∧
    Soa.coerceAmount (Cell.str "(1,234.56)") = Option.none := by
  refine ⟨?_, ?_, rfl, rfl, rfl, ?_, ?_, rfl, rfl, rfl, rfl⟩
  · have h : Univ.toFloat (Cell.str "$1,234.56") = some (mkRat 123456 100) := rfl
    rw [h, Rat.mkRat_eq_divInt, Rat.divInt_eq_div]; norm_num
  · have h : Univ.toFloat (Cell.str "(1,234.56)") = some (mkRat (-123456) 100) := rfl
    rw [h, Rat.mkRat_eq_divInt, Rat.divInt_eq_div]; norm_num
  · have h : Univ.toFloat (Cell.str "  $ 1,234.56 ") = some (mkRat 123456 100) := rfl
    rw [h, Rat.mkRat_eq_divInt, Rat.divInt_eq_div]; norm_num
  · have h : Soa.coerceAmount (Cell.str "$1,234.56") = some (mkRat 123456 100) := rfl
    rw [h, Rat.mkRat_eq_divInt, Rat.divInt_eq_div]; norm_num

/-- **C4, counterexample.**  The claim says the date coercer returns null
for unparseable input; `_to_date` in the universal module returns the
cleaned string itself (`return s  # return as-is if unparseable`): with
`"hello"` failing every textual format and the lenient fallback, the
result is `some "hello"`, not null. -/
theorem c4_date_coercion_counterexample :
    Univ.scanFmts Univ.univFmts "hello" = Option.none ∧
    ¬ (Univ.toDate (fun _ => Option.none) (Cell.str "hello") = Option.none) := by
  constructor
  · rfl
  · have h0 : Univ.toDate (fun _ => Option.none) (Cell.str "hello") = some "hello" := rfl
    simp [h0]

/-- **C4, amended.**  For every cell value that is not a native date, does
not match any of the tried day-first and month-first formats, and is not
accepted by the lenient fallback parser: the statement-module coercer
`_coerce_date` returns null, while the universal `_to_date` returns null
only for blank input and the placeholder spellings `nat`/`none`/`nan` and
otherwise returns the cleaned input string unchanged.  Both are total
(never throw). -/
theorem c4_date_coercion_amended (fb : String → Option DateYMD) (v : Cell)
    (hnative : ∀ dt, v ≠ Cell.date dt)
    (hscan : Univ.scanFmts Univ.univFmts (Univ.clean v) = Option.none)
    (hfb : fb (Univ.clean v) = Option.none) :
    Soa.coerceDate v = Option.none ∧
    Univ.toDate fb v =
      (if Univ.clean v == "" || lowStr (Univ.clean v) == "nat"
          || lowStr (Univ.clean v) == "none" || lowStr (Univ.clean v) == "nan"
       then Option.none else some (Univ.clean v)) := by
  constructor
  · cases v with
    | none => rfl
    | date dt => exact absurd rfl (hnative dt)
    | str s =>
      have hc : Univ.clean (Cell.str s) = pyTrim (pyStr (Cell.str s)) := rfl
      rw [hc] at hscan
      show Univ.scanFmts Soa.soaFmts (pyTrim (pyStr (Cell.str s))) = Option.none
      exact scanFmts_eq_none.mpr
        (fun f hf => scanFmts_eq_none.mp hscan f (soaFmts_subset f hf))
    | num q =>
      have hc : Univ.clean (Cell.num q) = pyTrim (pyStr (Cell.num q)) := rfl
      rw [hc] at hscan
      show Univ.scanFmts Soa.soaFmts (pyTrim (pyStr (Cell.num q))) = Option.none
      exact scanFmts_eq_none.mpr
        (fun f hf => scanFmts_eq_none.mp hscan f (soaFmts_subset f hf))
  · cases v with
    | date dt => exact absurd rfl (hnative dt)
    | none => rfl
    | str s =>
      by_cases hb : (Univ.clean (Cell.str s) == "") = true
      · simp [Univ.toDate, Univ.isBlankC, hb]
      · simp [Univ.toDate, Univ.isBlankC, hb, hscan, hfb]
    | num q =>
      by_cases hb : (Univ.clean (Cell.num q) == "") = true
      · simp [Univ.toDate, Univ.isBlankC, hb]
      · simp [Univ.toDate, Univ.isBlankC, hb, hscan, hfb]

/-- **C4, witness.**  The amended theorem applied to the unparseable
string `"hello"` and the always-failing fallback oracle. -/
theorem c4_date_coercion_witness :
    Soa.coerceDate (Cell.str "hello") = Option.none ∧
    Univ.toDate (fun _ => Option.none) (Cell.str "hello") = some "hello" := by
  have h := c4_date_coercion_amended (fun _ => Option.none) (Cell.str "hello")
    (by intro dt hdt; cases hdt) rfl rfl
  refine ⟨h.1, ?_⟩
  rw [h.2]
  rfl

/-- **C2, counterexample.**  The claim says the parse is a deterministic
function of the input bytes alone.  `parse_soa_workbook` anchors the
auto-computed `Days Late` at `datetime.now()` when the workbook carries no
report date: the same workbook parsed on 2026-01-10 and on 2026-01-11
yields different results (days late 8 vs 9 for the single record, a
difference that survives serialisation verbatim). -/
theorem c2_determinism_counterexample :
    Soa.parseSoaWorkbook demoSoaWb ⟨2026, 1, 10⟩ ≠
      Soa.parseSoaWorkbook demoSoaWb ⟨2026, 1, 11⟩ := by
  intro h
  have h1 : (Soa.parseSoaWorkbook demoSoaWb ⟨2026, 1, 10⟩).allItems.map
      (fun r => r.daysLate) = [some 8] := rfl
  have h2 : (Soa.parseSoaWorkbook demoSoaWb ⟨2026, 1, 11⟩).allItems.map
      (fun r => r.daysLate) = [some 9] := rfl
  rw [h, h2] at h1
  simp at h1

/-- **C2, amended.**  `parse_file` of the universal module is a pure
function of the loaded bytes, and `parse_soa_workbook` is deterministic
given the clock: whenever the workbook itself supplies a report date (a
`Today` row), the output is independent of the current date; only the
auto-computed days-late of workbooks without a report date varies with the
day the parse runs. -/
theorem c2_determinism_amended (rows : List (List Cell)) (d : DateYMD)
    (h : (Soa.soaMetadata rows).reportDate = some d) :
    ∀ now1 now2 : DateYMD,
      Soa.parseSoaWorkbook rows now1 = Soa.parseSoaWorkbook rows now2 := by
  intro now1 now2
  simp only [Soa.parseSoaWorkbook, h, Option.getD_some]

/-- **C2, witness.**  The amended theorem applied to a workbook with a
`Today` report-date row: runs on two different dates agree. -/
theorem c2_determinism_witness :
    Soa.parseSoaWorkbook demoSoaWbToday ⟨2026, 1, 10⟩ =
      Soa.parseSoaWorkbook demoSoaWbToday ⟨2026, 2, 20⟩ :=
  c2_determinism_amended demoSoaWbToday ⟨2026, 1, 5⟩ rfl ⟨2026, 1, 10⟩ ⟨2026, 2, 20⟩

/-- **C1.**  `parse_file` is total in the embedding (every code path of the
source funnels through `try/except` into a returned dict), its result
always carries the `errors` field (by the shape of `ParseOut`), and: a
base64-decode failure or a workbook that cannot be loaded — including the
empty workbook, which `_load_workbook` maps to `None` — yields
`file_type = "ERROR"` with a non-empty error list, while a loadable
workbook with no recognisable signal is routed to the generic extractor
whose result is `UNKNOWN` with a non-empty error list. -/
theorem c1_parse_file_error_contract (ex : Univ.Extractors) (inp : Univ.FileInput)
    (filename : String) :
    (Univ.loadWorkbook inp = Option.none →
      (Univ.parseFile ex inp filename).fileType = "ERROR" ∧
      (Univ.parseFile ex inp filename).errors ≠ []) ∧
    (inp.rawSheets = some [] → Univ.loadWorkbook inp = Option.none) ∧
    (inp.b64Fail = true →
      (Univ.parseFile ex inp filename).fileType = "ERROR" ∧
      (Univ.parseFile ex inp filename).errors ≠ []) ∧
    (∀ sheets, inp.b64Fail = false → Univ.loadWorkbook inp = some sheets →
      Univ.detectFileType sheets = "UNKNOWN" →
      (Univ.parseFile ex inp filename).fileType = "UNKNOWN" ∧
      (Univ.parseFile ex inp filename).errors ≠ []) := by
  refine ⟨?_, ?_, ?_, ?_⟩
  · intro hload
    cases hb : inp.b64Fail with
    | true => simp [Univ.parseFile, hb]
    | false => simp [Univ.parseFile, hb, hload]
  · intro hraw
    simp [Univ.loadWorkbook, hraw]
  · intro hb
    simp [Univ.parseFile, hb]
  · intro sheets hb hload hdet
    have hrun : Univ.parseFile ex inp filename = Univ.parseUnknown sheets filename := by
      simp [Univ.parseFile, hb, hload, hdet]
    rw [hrun]
    simp [Univ.parseUnknown]

/-- **C1, witness.**  The contract applied to the empty workbook (a
loadable container with no sheets) under extractors that always raise. -/
theorem c1_parse_file_error_contract_witness :
    (Univ.parseFile exRaise ⟨false, some []⟩ "empty.xlsx").fileType = "ERROR" ∧
    (Univ.parseFile exRaise ⟨false, some []⟩ "empty.xlsx").errors ≠ [] :=
  (c1_parse_file_error_contract exRaise ⟨false, some []⟩ "empty.xlsx").1 rfl

theorem qltB_iff {a b : ℚ} : qltB a b = true ↔ a < b :=
  Iff.rfl

theorem qabs_eq (q : ℚ) : qabs q = |q| := by
  unfold qabs
  by_cases h : q.num < 0
  · rw [if_pos h, abs_of_neg]
    have hq : ¬ (0 ≤ q) := fun hq => absurd (Rat.num_nonneg.mpr hq) (not_le.mpr h)
    exact not_le.mp hq
  · rw [if_neg h, abs_of_nonneg]
    exact Rat.num_nonneg.mp (not_lt.mp h)

theorem hdrCellNumBig_of_num {q : ℚ} (h : 100 < |q|) :
    Soa.hdrCellNumBig (Cell.num q) = true := by
  show qltB 100 (qabs q) = true
  rw [qabs_eq]
  exact qltB_iff.mpr h

theorem hdrCellNumBig_of_str {s : String} {n : ℚ}
    (hp : pyFloat (pyTrim (delChar '$' (delChar ',' s))) = some n) (h : 100 < |n|) :
    Soa.hdrCellNumBig (Cell.str s) = true := by
  have h0 : Soa.hdrCellNumBig (Cell.str s) =
      (match pyFloat (pyTrim (delChar '$' (delChar ',' s))) with
       | some n => qltB 100 (qabs n)
       | Option.none =>
         pyFloatSpecial (pyTrim (delChar '$' (delChar ',' s))) &&
           !(strHasSub (lowStr (pyTrim (delChar '$' (delChar ',' s)))) "nan")) := rfl
  rw [h0, hp]
  show qltB 100 (qabs n) = true
  rw [qabs_eq]
  exact qltB_iff.mpr h

theorem isHeaderRow_false_of_big {row : List Cell} {v : Cell} (hv : v ∈ row)
    (hbig : Soa.hdrCellNumBig v = true) : Soa.isHeaderRow row = false := by
  have hvn : isNoneCell v = false := by
    cases v with
    | none => exact absurd hbig (by decide)
    | str s => rfl
    | num q => rfl
    | date dt => rfl
  have hv' : v ∈ row.filter (fun v => !isNoneCell v) :=
    List.mem_filter.mpr ⟨hv, by rw [hvn]; rfl⟩
  have hany : (row.filter (fun v => !isNoneCell v)).any Soa.hdrCellNumBig = true :=
    List.any_eq_true.mpr ⟨v, hv', hbig⟩
  by_cases hlen : (row.filter (fun v => !isNoneCell v)).length < 4
  · simp [Soa.isHeaderRow, hlen]
  · simp [Soa.isHeaderRow, hlen, hany]

/-- **C7, counterexample.**  The claim says a row with 3 or fewer
non-blank cells is never classified as a header.  The detector counts
non-`None` cells, so a row whose only non-blank cell packs three header
keywords, padded with empty strings, is accepted: it has exactly one
non-blank cell yet is classified as a header. -/
theorem c7_header_guard_counterexample :
    nonBlankCount demoHdrRow ≤ 3 ∧ Soa.isHeaderRow demoHdrRow = true := by
  constructor
  · have h : nonBlankCount demoHdrRow = 1 := rfl
    rw [h]
    norm_num
  · rfl

/-- **C7, amended.**  The header detector never classifies a row as a
header when it has 3 or fewer non-`None` cells (cells holding empty or
whitespace-only strings count towards the threshold, so the bound is on
populated cells, not on non-blank cells), and never when any of its cells,
coerced to a number by `float(str(v).replace(",","").replace("$","").strip())`,
has absolute value greater than 100. -/
theorem c7_header_guards_amended (row : List Cell) :
    (nonNoneCount row ≤ 3 → Soa.isHeaderRow row = false) ∧
    (∀ q : ℚ, Cell.num q ∈ row → 100 < |q| → Soa.isHeaderRow row = false) ∧
    (∀ (s : String) (n : ℚ), Cell.str s ∈ row →
      pyFloat (pyTrim (delChar '$' (delChar ',' s))) = some n → 100 < |n| →
      Soa.isHeaderRow row = false) := by
  refine ⟨?_, ?_, ?_⟩
  · intro h
    have hlt : (row.filter (fun v => !isNoneCell v)).length < 4 :=
      Nat.lt_succ_of_le h
    simp [Soa.isHeaderRow, hlt]
  · intro q hq hgt
    exact isHeaderRow_false_of_big hq (hdrCellNumBig_of_num hgt)
  · intro s n hs hp hgt
    exact isHeaderRow_false_of_big hs (hdrCellNumBig_of_str hp hgt)

/-- **C7, witness.**  The amended guards applied to a sparse row and to a
row containing the large value 500. -/
theorem c7_header_guards_witness :
    Soa.isHeaderRow demoSparseRow = false ∧ Soa.isHeaderRow demoBigRow = false := by
  constructor
  · exact (c7_header_guards_amended demoSparseRow).1 (by norm_num [show nonNoneCount demoSparseRow = 2 from rfl])
  · refine (c7_header_guards_amended demoBigRow).2.2 "500" 500 ?_ ?_ ?_
    · show Cell.str "500" ∈ demoBigRow
      simp [demoBigRow]
    · rfl
    · norm_num

theorem foldl_max_ge (f : String → Nat) :
    ∀ (ks : List String) (b : String),
      f b ≤ f (List.foldl (fun best t => if f best < f t then t else best) b ks) ∧
      (∀ t ∈ ks, f t ≤ f (List.foldl (fun best t => if f best < f t then t else best) b ks)) ∧
      (List.foldl (fun best t => if f best < f t then t else best) b ks = b ∨
        List.foldl (fun best t => if f best < f t then t else best) b ks ∈ ks) := by
  intro ks
  induction ks with
  | nil =>
    intro b
    exact ⟨le_refl _, by simp, Or.inl rfl⟩
  | cons k rest ih =>
    intro b
    simp only [List.foldl_cons]
    obtain ⟨h1, h2, h3⟩ := ih (if f b < f k then k else b)
    have hbb' : f b ≤ f (if f b < f k then k else b) ∧ f k ≤ f (if f b < f k then k else b) := by
      by_cases h : f b < f k
      · rw [if_pos h]; exact ⟨le_of_lt h, le_refl _⟩
      · rw [if_neg h]; exact ⟨le_refl _, not_lt.mp h⟩
    refine ⟨le_trans hbb'.1 h1, ?_, ?_⟩
    · intro t ht
      rcases List.mem_cons.mp ht with h | h
      · rw [h]; exact le_trans hbb'.2 h1
      · exact h2 t h
    · rcases h3 with h | h
      · rw [h]
        by_cases hc : f b < f k
        · rw [if_pos hc]; exact Or.inr (List.mem_cons_self _ _)
        · rw [if_neg hc]; exact Or.inl rfl
      · exact Or.inr (List.mem_cons_of_mem _ h)

theorem pyMaxKey_spec (f : String → Nat) (k : String) (ks : List String) :
    Univ.pyMaxKey f (k :: ks) ∈ k :: ks ∧
    ∀ t ∈ k :: ks, f t ≤ f (Univ.pyMaxKey f (k :: ks)) := by
  have h0 : Univ.pyMaxKey f (k :: ks) =
      List.foldl (fun best t => if f best < f t then t else best) k ks := rfl
  obtain ⟨h1, h2, h3⟩ := foldl_max_ge f ks k
  constructor
  · rw [h0]
    rcases h3 with h | h
    · rw [h]; exact List.mem_cons_self _ _
    · exact List.mem_cons_of_mem _ h
  · intro t ht
    rw [h0]
    rcases List.mem_cons.mp ht with h | h
    · rw [h]; exact h1
    · exact h2 t h

/-- **C9.**  The file-type classifier accumulates per-type scores over all
sheets (`scoreOf`: an 8-point boost for exactly-matching or
starts-with-matching sheet names plus one point per signal phrase in the
first 25 rows) and returns a type with the highest total, `UNKNOWN`
exactly when every type scores zero. -/
theorem c9_classifier (sheets : Univ.Workbook) :
    (Univ.detectFileType sheets = "UNKNOWN" ↔
      ∀ t ∈ Univ.typeNames, Univ.scoreOf sheets t = 0) ∧
    (Univ.detectFileType sheets ≠ "UNKNOWN" →
      Univ.detectFileType sheets ∈ Univ.typeNames ∧
      ∀ t ∈ Univ.typeNames, Univ.scoreOf sheets t ≤
        Univ.scoreOf sheets (Univ.detectFileType sheets)) := by
  have htn : Univ.typeNames =
      "SOA" :: ["INVOICE_LIST", "OPPORTUNITY_TRACKER", "SHOP_VISIT", "SVRG_MASTER"] := rfl
  obtain ⟨hmem, hmax⟩ := pyMaxKey_spec (Univ.scoreOf sheets) "SOA"
    ["INVOICE_LIST", "OPPORTUNITY_TRACKER", "SHOP_VISIT", "SVRG_MASTER"]
  rw [← htn] at hmem hmax
  have hunk : "UNKNOWN" ∉ Univ.typeNames := by decide
  have hdet : Univ.detectFileType sheets =
      (if 0 < Univ.scoreOf sheets (Univ.pyMaxKey (Univ.scoreOf sheets) Univ.typeNames)
       then Univ.pyMaxKey (Univ.scoreOf sheets) Univ.typeNames else "UNKNOWN") := rfl
  by_cases hpos : 0 < Univ.scoreOf sheets (Univ.pyMaxKey (Univ.scoreOf sheets) Univ.typeNames)
  · rw [hdet, if_pos hpos]
    constructor
    · constructor
      · intro h
        exact absurd (h ▸ hmem) hunk
      · intro h
        have := h _ hmem
        omega
    · intro _
      exact ⟨hmem, hmax⟩
  · rw [hdet, if_neg hpos]
    constructor
    · constructor
      · intro _ t ht
        have := hmax t ht
        omega
      · intro _
        rfl
    · intro h
      exact absurd rfl h

/-- **C9, witness.**  The classifier applied to the empty workbook: it is
`UNKNOWN`, and the score of every type — here `SOA` — is zero. -/
theorem c9_classifier_witness : Univ.scoreOf [] "SOA" = 0 :=
  (c9_classifier []).1.mp rfl "SOA" (by decide)

theorem lenFilterMono {α : Type} (p q : α → Bool) (himp : ∀ a, q a = true → p a = true) :
    ∀ l : List α, (l.filter q).length ≤ (l.filter p).length := by
  intro l
  induction l with
  | nil => exact le_refl _
  | cons a rest ih =>
    by_cases hq : q a = true
    · rw [List.filter_cons_of_pos hq, List.filter_cons_of_pos (himp a hq)]
      exact Nat.succ_le_succ ih
    · rw [List.filter_cons_of_neg (by simpa using hq)]
      by_cases hp : p a = true
      · rw [List.filter_cons_of_pos hp]
        exact le_trans ih (Nat.le_succ _)
      · rw [List.filter_cons_of_neg (by simpa using hp)]
        exact ih

theorem head_filter_strengthen {α : Type} (p q : α → Bool)
    (himp : ∀ a, q a = true → p a = true) :
    ∀ (l : List α) (c : α), (l.filter p).head? = some c → q c = true →
      (l.filter q).head? = some c := by
  intro l
  induction l with
  | nil => intro c hc _; simp at hc
  | cons a rest ih =>
    intro c hc hqc
    by_cases hp : p a = true
    · rw [List.filter_cons_of_pos hp] at hc
      have hac : a = c := by simpa using hc
      rw [List.filter_cons_of_pos (hac ▸ hqc)]
      simp [hac]
    · have hq : ¬ q a = true := fun hq => hp (himp a hq)
      rw [List.filter_cons_of_neg (by simpa using hp)] at hc
      rw [List.filter_cons_of_neg (by simpa using hq)]
      exact ih c hc hqc

theorem map_snd_filter_snd {α : Type} (p : α → Bool) :
    ∀ l : List (Nat × α),
      (l.filter (fun q => p q.2)).map Prod.snd = (l.map Prod.snd).filter p := by
  intro l
  induction l with
  | nil => rfl
  | cons a rest ih =>
    by_cases h : p a.2 = true
    · simp [List.filter_cons, h, ih]
    · simp [List.filter_cons, h, ih]

theorem enumNonNone_map_snd (row : List Cell) :
    (Soa.enumNonNone row).map Prod.snd = row.filter (fun v => !isNoneCell v) := by
  unfold Soa.enumNonNone
  rw [map_snd_filter_snd (fun v => !isNoneCell v) row.enum, List.enum_map_snd]

theorem nonblank_is_nonnone : ∀ v : Cell, (!Univ.isBlankC v) = true → (!isNoneCell v) = true := by
  intro v h
  cases v with
  | none => simp [Univ.isBlankC, Univ.clean] at h
  | str s => rfl
  | num q => rfl
  | date dt => rfl

theorem sectionKeywords_ne_empty : ∀ kw ∈ Soa.sectionKeywords, kw ≠ "" := by
  decide

theorem strHasSub_empty {kw : String} (h : kw ≠ "") : strHasSub "" kw = false := by
  unfold strHasSub listHasSub
  show listIsInit kw.data [] = false
  cases hk : kw.data with
  | nil => exact absurd (congrArg String.mk hk) h
  | cons c cs => rfl

theorem lowStr_ne_empty {s : String} (h : lowStr s ≠ "") : s ≠ "" := by
  intro he
  exact h (by rw [he]; rfl)

/-- **C8, counterexample.**  The universal module's SOA section detector
(`_soa_is_section_header`) has no cell-count guard: a row with five
non-blank cells whose first cell reads `TotalCare Charges` is still
classified as a section title, so the claim that a row is a section title
only if it has at most 3 non-blank cells fails for this detector. -/
theorem c8_section_title_counterexample :
    Univ.soaIsSectionHeader demoWideRow = some "TotalCare Charges" ∧
    nonBlankCount demoWideRow = 5 :=
  ⟨rfl, rfl⟩

/-- **C8, amended.**  The statement-module detector `_is_section_header`
accepts a row as a section title only if: it has at most 3 non-blank cells;
its first populated (non-`None`) cell — which is then also its first
non-blank cell — is non-numeric text (`float` fails on it); that text, with
trailing colons removed, is none of the reserved summary labels `total`,
`overdue`, `available credit`, `net balance`; and, when exactly 2 cells are
populated, the row is not a label-plus-number pair that looks like a
summary row (second populated cell parses as a number and the label text
contains `total`/`overdue`/`credit`/`balance`).  The universal module's
SOA detector `_soa_is_section_header` applies only the first-cell checks:
it accepts only if the leading cell is non-blank, not a number, and its
cleaned text contains a section keyword; it has no cell-count,
summary-label or two-cell-pair guard. -/
theorem c8_section_title_guards_amended :
    (∀ (row : List Cell) (n : Nat),
      Soa.isSectionHeader row n = true →
      nonBlankCount row ≤ 3 ∧
    ∃ c, firstNonNoneCell row = some c ∧ firstNonBlankCell row = some c ∧
      pyFloatOk (delChar ',' (lowStr (pyTrim (pyStr c)))) = false ∧
      rstripColon (lowStr (pyTrim (pyStr c))) ≠ "total" ∧
      rstripColon (lowStr (pyTrim (pyStr c))) ≠ "overdue" ∧
      rstripColon (lowStr (pyTrim (pyStr c))) ≠ "available credit" ∧
      rstripColon (lowStr (pyTrim (pyStr c))) ≠ "net balance" ∧
      (nonNoneCount row = 2 →
        ¬(pyFloatOk (pyTrim (delChar '$' (delChar ','
            (pyStr ((row.filter (fun v => !isNoneCell v)).getD 1 Cell.none))))) = true ∧
          (["total", "overdue", "credit", "balance"].any
            (fun sw => strHasSub (rstripColon (lowStr (pyTrim (pyStr c)))) sw)) = true))) ∧
    (∀ (row : List Cell) (s : String),
      Univ.soaIsSectionHeader row = some s →
      ∃ v0 rest, row = v0 :: rest ∧ Univ.isBlankC v0 = false ∧
        Univ.isNumCell v0 = false ∧ s = Univ.clean v0 ∧
        (Univ.soaSectionKw.any
          (fun kw => strHasSub (lowStr (Univ.clean v0)) kw)) = true) := by
  have hright : ∀ (row : List Cell) (s : String),
      Univ.soaIsSectionHeader row = some s →
      ∃ v0 rest, row = v0 :: rest ∧ Univ.isBlankC v0 = false ∧
        Univ.isNumCell v0 = false ∧ s = Univ.clean v0 ∧
        (Univ.soaSectionKw.any
          (fun kw => strHasSub (lowStr (Univ.clean v0)) kw)) = true := by
    intro row s h
    cases row with
    | nil => cases h
    | cons v0 rest =>
      have h' : (if Univ.isBlankC v0 || Univ.isNumCell v0
                 then (Option.none : Option String)
                 else if Univ.soaSectionKw.any
                        (fun kw => strHasSub (lowStr (Univ.clean v0)) kw)
                      then some (Univ.clean v0) else Option.none) = some s := h
      by_cases hb : (Univ.isBlankC v0 || Univ.isNumCell v0) = true
      · rw [if_pos hb] at h'; cases h'
      · rw [if_neg hb] at h'
        by_cases hkw : (Univ.soaSectionKw.any
            (fun kw => strHasSub (lowStr (Univ.clean v0)) kw)) = true
        · rw [if_pos hkw] at h'
          have hb2 : (Univ.isBlankC v0 || Univ.isNumCell v0) = false :=
            Bool.eq_false_iff.mpr hb
          obtain ⟨hb3, hb4⟩ : Univ.isBlankC v0 = false ∧ Univ.isNumCell v0 = false := by
            simpa using hb2
          exact ⟨v0, rest, rfl, hb3, hb4, (Option.some.inj h').symm, hkw⟩
        · rw [if_neg hkw] at h'; cases h'
  refine ⟨?_, hright⟩
  intro row n h
  cases he : Soa.enumNonNone row with
  | nil =>
    rw [Soa.isSectionHeader, he] at h
    cases h
  | cons p rest =>
    obtain ⟨i0, v0⟩ := p
    rw [Soa.isSectionHeader, he] at h
    simp only at h
    split_ifs at h with hlen hfl hres hsum
    -- h : the final keyword test; hlen/hfl/hres/hsum : negated guards
    have hkw := List.any_eq_true.mp h
    obtain ⟨kw, hkwmem, hkwsub⟩ := hkw
    -- the scrutinised cell is non-None
    have hv0mem : (i0, v0) ∈ Soa.enumNonNone row := by
      rw [he]; exact List.mem_cons_self _ _
    have hv0nn : (!isNoneCell v0) = true :=
      (List.mem_filter.mp hv0mem).2
    -- the keyword hit forces the text to be non-empty, hence non-blank
    have htextne : lowStr (pyTrim (pyStr v0)) ≠ "" := by
      intro hemp
      rw [hemp, strHasSub_empty (sectionKeywords_ne_empty kw hkwmem)] at hkwsub
      cases hkwsub
    have htrimne : pyTrim (pyStr v0) ≠ "" := lowStr_ne_empty htextne
    have hv0nb : (!Univ.isBlankC v0) = true := by
      have hcne : v0 ≠ Cell.none := by
        intro hv; rw [hv] at hv0nn; cases hv0nn
      have : Univ.clean v0 = pyTrim (pyStr v0) := clean_eq_trim hcne
      simp [Univ.isBlankC, this, htrimne]
    -- first-non-None and first-non-blank both point at v0
    have hfn : firstNonNoneCell row = some v0 := by
      unfold firstNonNoneCell
      have := congrArg List.head? (enumNonNone_map_snd row)
      rw [he] at this
      exact this.symm
    have hfb : firstNonBlankCell row = some v0 :=
      head_filter_strengthen _ _ nonblank_is_nonnone row v0 hfn hv0nb
    refine ⟨?_, v0, hfn, hfb, ?_, ?_, ?_, ?_, ?_, ?_⟩
    · -- non-blank count bounded by populated count, itself at most 3
      have h1 : nonBlankCount row ≤ nonNoneCount row :=
        lenFilterMono _ _ nonblank_is_nonnone row
      have h2 : nonNoneCount row = ((i0, v0) :: rest).length := by
        unfold nonNoneCount
        rw [← enumNonNone_map_snd row, List.length_map, he]
      have hlen3 : ((i0, v0) :: rest).length ≤ 3 := not_lt.mp hlen
      omega
    · simpa using hfl
    · intro hc; exact hres (by simp [hc])
    · intro hc; exact hres (by simp [hc])
    · intro hc; exact hres (by simp [hc])
    · intro hc; exact hres (by simp [hc])
    · intro h2 hpair
      have hlen2 : (Soa.enumNonNone row).length = 2 := by
        have h2' : nonNoneCount row = (Soa.enumNonNone row).length := by
          unfold nonNoneCount
          rw [← enumNonNone_map_snd row, List.length_map]
        rw [← h2', h2]
      rw [he] at hlen2
      simp only [List.length_cons] at hlen2
      have hrest1 : rest.length = 1 := by omega
      obtain ⟨⟨i1, v1⟩, hrest⟩ : ∃ p1, rest = [p1] := by
        cases rest with
        | nil => simp at hrest1
        | cons a t =>
          cases t with
          | nil => exact ⟨a, rfl⟩
          | cons b t' => simp at hrest1
      have hget : (row.filter (fun v => !isNoneCell v)).getD 1 Cell.none = v1 := by
        rw [← enumNonNone_map_snd row, he, hrest]
        rfl
      rw [hget] at hpair
      apply hsum
      rw [hrest]
      simp [hpair.1, hpair.2]

/-- **C8, witness.**  The statement-module guards applied to the accepted
one-cell section title `["TotalCare Charges"]`, and the universal module's
first-cell checks applied to the accepted wide row. -/
theorem c8_section_title_guards_witness :
    (nonBlankCount demoSecRow ≤ 3 ∧
      firstNonBlankCell demoSecRow = some (Cell.str "TotalCare Charges")) ∧
    (∃ v0 rest, demoWideRow = v0 :: rest ∧ Univ.isBlankC v0 = false ∧
      Univ.isNumCell v0 = false ∧ "TotalCare Charges" = Univ.clean v0 ∧
      (Univ.soaSectionKw.any
        (fun kw => strHasSub (lowStr (Univ.clean v0)) kw)) = true) :=
  ⟨⟨(c8_section_title_guards_amended.1 demoSecRow 20 rfl).1, rfl⟩,
   c8_section_title_guards_amended.2 demoWideRow "TotalCare Charges" rfl⟩

theorem firstIdxFrom_spec (p : Nat → Bool) :
    ∀ (fuel i c : Nat), Univ.firstIdxFrom p i fuel = some c →
      i ≤ c ∧ p c = true ∧ ∀ j, i ≤ j → j < c → p j = false := by
  intro fuel
  induction fuel with
  | zero =>
    intro i c h
    cases h
  | succ fuel ih =>
    intro i c h
    unfold Univ.firstIdxFrom at h
    by_cases hp : p i = true
    · rw [if_pos hp] at h
      injection h with h
      subst h
      exact ⟨le_refl _, hp, fun j hj hjc => absurd hj (by omega)⟩
    · rw [if_neg hp] at h
      obtain ⟨h1, h2, h3⟩ := ih (i + 1) c h
      refine ⟨by omega, h2, ?_⟩
      intro j hj hjc
      by_cases hji : j = i
      · subst hji
        cases hpb : p j with
        | true => exact absurd hpb hp
        | false => rfl
      · exact h3 j (by omega) hjc

theorem claimCol_spec {hdr : List Cell} {als : List String} {claimed : List Nat} {c : Nat}
    (h : Univ.claimCol hdr als claimed = some c) :
    Univ.colMatches hdr als c = true ∧ c ∉ claimed ∧
      ∀ c' < c, Univ.colMatches hdr als c' = true → c' ∈ claimed := by
  obtain ⟨-, h2, h3⟩ := firstIdxFrom_spec _ hdr.length 0 c h
  obtain ⟨ha, hb⟩ : Univ.colMatches hdr als c = true ∧ (!claimed.contains c) = true := by
    simpa using h2
  refine ⟨ha, ?_, ?_⟩
  · intro hmem
    have hc : claimed.contains c = true := List.elem_iff.mpr hmem
    rw [hc] at hb
    cases hb
  · intro c' hc' hm
    have hp := h3 c' (Nat.zero_le _) hc'
    cases hcontains : claimed.contains c' with
    | true => exact List.elem_iff.mp hcontains
    | false =>
      rw [hm, hcontains] at hp
      cases hp

theorem runClaimMap_cons_none {hdr : List Cell} {g : String} {als : List String}
    {rest : List (String × List String)} {claimed : List Nat}
    (h : Univ.claimCol hdr als claimed = Option.none) :
    Univ.runClaimMap hdr ((g, als) :: rest) claimed =
      Univ.runClaimMap hdr rest claimed := by
  rw [Univ.runClaimMap, h]

theorem runClaimMap_cons_some {hdr : List Cell} {g : String} {als : List String}
    {rest : List (String × List String)} {claimed : List Nat} {c0 : Nat}
    (h : Univ.claimCol hdr als claimed = some c0) :
    Univ.runClaimMap hdr ((g, als) :: rest) claimed =
      (g, c0) :: Univ.runClaimMap hdr rest (c0 :: claimed) := by
  rw [Univ.runClaimMap, h]

theorem runClaimMap_cols (hdr : List Cell) :
    ∀ (fields : List (String × List String)) (claimed : List Nat),
      (∀ c ∈ (Univ.runClaimMap hdr fields claimed).map Prod.snd, c ∉ claimed) ∧
      ((Univ.runClaimMap hdr fields claimed).map Prod.snd).Nodup := by
  intro fields
  induction fields with
  | nil => intro claimed; simp [Univ.runClaimMap]
  | cons fa rest ih =>
    intro claimed
    obtain ⟨f, als⟩ := fa
    cases hcc : Univ.claimCol hdr als claimed with
    | none =>
      rw [runClaimMap_cons_none hcc]
      exact ih claimed
    | some c =>
      rw [runClaimMap_cons_some hcc]
      obtain ⟨hm, hnc, hmin⟩ := claimCol_spec hcc
      obtain ⟨hni, hnd⟩ := ih (c :: claimed)
      constructor
      · intro c' hc'
        simp only [List.map_cons, List.mem_cons] at hc'
        rcases hc' with h | h
        · rw [h]; exact hnc
        · intro hmem
          exact (hni c' h) (List.mem_cons_of_mem _ hmem)
      · simp only [List.map_cons, List.nodup_cons]
        exact ⟨fun hc => (hni c hc) (List.mem_cons_self _ _), hnd⟩

theorem runClaimMap_mem (hdr : List Cell) :
    ∀ (fields : List (String × List String)) (claimed : List Nat) (f : String) (c : Nat),
      (f, c) ∈ Univ.runClaimMap hdr fields claimed →
      ∃ als, (f, als) ∈ fields ∧ Univ.colMatches hdr als c = true ∧
        ∀ c' < c, Univ.colMatches hdr als c' = true →
          c' ∈ claimed ∨ c' ∈ (Univ.runClaimMap hdr fields claimed).map Prod.snd := by
  intro fields
  induction fields with
  | nil =>
    intro claimed f c h
    simp [Univ.runClaimMap] at h
  | cons fa rest ih =>
    intro claimed f c h
    obtain ⟨g, als⟩ := fa
    cases hcc : Univ.claimCol hdr als claimed with
    | none =>
      rw [runClaimMap_cons_none hcc] at h ⊢
      obtain ⟨als', h1, h2, h3⟩ := ih claimed f c h
      exact ⟨als', List.mem_cons_of_mem _ h1, h2, h3⟩
    | some c0 =>
      rw [runClaimMap_cons_some hcc] at h ⊢
      obtain ⟨hm0, hnc0, hmin0⟩ := claimCol_spec hcc
      rcases List.mem_cons.mp h with hhead | htail
      · have hf : f = g ∧ c = c0 := by
          injection hhead with ha hb
          exact ⟨ha, hb⟩
        rw [hf.1, hf.2]
        refine ⟨als, List.mem_cons_self _ _, hm0, ?_⟩
        intro c' hc' hmc'
        exact Or.inl (hmin0 c' hc' hmc')
      · obtain ⟨als', h1, h2, h3⟩ := ih (c0 :: claimed) f c htail
        refine ⟨als', List.mem_cons_of_mem _ h1, h2, ?_⟩
        intro c' hc' hmc'
        rcases h3 c' hc' hmc' with hcl | hcols
        · rcases List.mem_cons.mp hcl with h0 | h0
          · rw [h0]
            exact Or.inr (by simp)
          · exact Or.inl h0
        · exact Or.inr (by simp [hcols])

/-- **C5.**  The column-role mapper iterates fields in priority order; a
mapped field's column genuinely matches one of its aliases; every smaller
matching column was already claimed (so each field claims the first
matching unclaimed column); no two fields ever own the same column (no
later field steals an earlier field's column).  On the header
`["Amount in Doc. Curr.", "Currency"]`, `amount` claims index 0 and
`currency` claims index 1. -/
theorem c5_claim_once_mapper :
    (∀ (hdr : List Cell) (aliases : List (String × List String)),
      ((Univ.runClaimMap hdr aliases []).map Prod.snd).Nodup) ∧
    (∀ (hdr : List Cell) (aliases : List (String × List String)) (f : String) (c : Nat),
      (f, c) ∈ Univ.runClaimMap hdr aliases [] →
      ∃ als, (f, als) ∈ aliases ∧ Univ.colMatches hdr als c = true ∧
        ∀ c' < c, Univ.colMatches hdr als c' = true →
          c' ∈ (Univ.runClaimMap hdr aliases []).map Prod.snd) ∧
    List.lookup "amount" (Univ.mapSoaColumns demoInvHeader) = some 0 ∧
    List.lookup "currency" (Univ.mapSoaColumns demoInvHeader) = some 1 := by
  refine ⟨?_, ?_, rfl, rfl⟩
  · intro hdr aliases
    exact (runClaimMap_cols hdr aliases []).2
  · intro hdr aliases f c h
    obtain ⟨als, h1, h2, h3⟩ := runClaimMap_mem hdr aliases [] f c h
    refine ⟨als, h1, h2, ?_⟩
    intro c' hc' hmc'
    rcases h3 c' hc' hmc' with hcl | hcols
    · cases hcl
    · exact hcols

/-- **C5, witness.**  The mapper's invariants instantiated on the header
`["Amount in Doc. Curr.", "Currency"]` at the `amount` field, column 0. -/
theorem c5_claim_once_mapper_witness :
    ∃ als, ("amount", als) ∈ Univ.soaColAliases ∧
      Univ.colMatches demoInvHeader als 0 = true := by
  obtain ⟨als, h1, h2, -⟩ :=
    c5_claim_once_mapper.2.1 demoInvHeader Univ.soaColAliases "amount" 0 (by decide)
  exact ⟨als, h1, h2⟩

/-- **C10.**  The combined open-items list is a permutation of exactly the
SOA section items and INVOICE_LIST items with a non-null amount, each
tagged with its source file, source section and file type, and is sorted
by days-late descending (null treated as 0) with ties broken by absolute
amount descending (`combRel`). -/
theorem c10_combined_open_items (results : List (String × Univ.OpenRes)) :
    List.Sorted Univ.combRel (Univ.buildCombinedOpenItems results) ∧
    (Univ.buildCombinedOpenItems results).Perm (Univ.collectOpen results) ∧
    (∀ ci : Univ.CombItem, ci ∈ Univ.buildCombinedOpenItems results ↔
      ∃ fname r it, (fname, r) ∈ results ∧ it.amount ≠ Option.none ∧
        ((r.fileType = "SOA" ∧ ∃ sec ∈ r.sections, it ∈ sec.items ∧
            ci = ⟨it, fname, some sec.name, r.fileType⟩) ∨
         (r.fileType = "INVOICE_LIST" ∧ it ∈ r.items ∧
            ci = ⟨it, fname, Option.none, r.fileType⟩))) := by
  refine ⟨List.sorted_insertionSort _ _, List.perm_insertionSort _ _, ?_⟩
  intro ci
  rw [show Univ.buildCombinedOpenItems results =
        (Univ.collectOpen results).insertionSort Univ.combRel from rfl]
  rw [(List.perm_insertionSort Univ.combRel (Univ.collectOpen results)).mem_iff]
  unfold Univ.collectOpen
  rw [List.mem_flatMap]
  constructor
  · rintro ⟨⟨fname, r⟩, hp, hci⟩
    by_cases hsoa : (r.fileType == "SOA") = true
    · rw [if_pos hsoa] at hci
      rw [List.mem_flatMap] at hci
      obtain ⟨sec, hsec, hci⟩ := hci
      rw [List.mem_map] at hci
      obtain ⟨it, hit, hci⟩ := hci
      rw [List.mem_filter] at hit
      refine ⟨fname, r, it, hp, by simpa using hit.2, Or.inl ⟨by simpa using hsoa, sec, hsec, hit.1, ?_⟩⟩
      rw [← hci]
    · rw [if_neg hsoa] at hci
      by_cases hinv : (r.fileType == "INVOICE_LIST") = true
      · rw [if_pos hinv] at hci
        rw [List.mem_map] at hci
        obtain ⟨it, hit, hci⟩ := hci
        rw [List.mem_filter] at hit
        refine ⟨fname, r, it, hp, by simpa using hit.2, Or.inr ⟨by simpa using hinv, hit.1, ?_⟩⟩
        rw [← hci]
      · rw [if_neg hinv] at hci
        cases hci
  · rintro ⟨fname, r, it, hp, hamt, hbr⟩
    refine ⟨⟨fname, r⟩, hp, ?_⟩
    rcases hbr with ⟨hft, sec, hsec, hit, hci⟩ | ⟨hft, hit, hci⟩
    · rw [if_pos (by simp [hft])]
      rw [List.mem_flatMap]
      refine ⟨sec, hsec, ?_⟩
      rw [List.mem_map]
      exact ⟨it, List.mem_filter.mpr ⟨hit, by simpa using hamt⟩, hci.symm⟩
    · rw [if_neg (by simp [hft]), if_pos (by simp [hft])]
      rw [List.mem_map]
      exact ⟨it, List.mem_filter.mpr ⟨hit, by simpa using hamt⟩, hci.symm⟩

/-- **C10, witness.**  The membership characterisation instantiated on a
one-file batch: the tagged SOA item is in the combined list. -/
theorem c10_combined_open_items_witness :
    (⟨demoOpenItem, "A.xlsx", some "TotalCare Charges", "SOA"⟩ : Univ.CombItem) ∈
      Univ.buildCombinedOpenItems demoOpenResults :=
  ((c10_combined_open_items demoOpenResults).2.2 _).mpr
    ⟨"A.xlsx", ⟨"SOA", [⟨"TotalCare Charges", [demoOpenItem]⟩], []⟩, demoOpenItem,
      by simp [demoOpenResults], by simp [demoOpenItem], Or.inl ⟨rfl,
        ⟨"TotalCare Charges", [demoOpenItem]⟩, by simp, by simp, rfl⟩⟩

theorem lookup_cons_ne {β : Type} {a k : String} (h : a ≠ k) (b : β)
    (es : List (String × β)) : List.lookup a ((k, b) :: es) = List.lookup a es := by
  rw [List.lookup_cons]
  rw [show (a == k) = false from beq_false_of_ne h]

theorem lookup_appOcc (k : String) (o : Univ.Occ) :
    ∀ (m : List (String × List Univ.Occ)) (k' : String),
      List.lookup k' (Univ.appOcc m k o) =
        (if k' = k then some ((List.lookup k m).getD [] ++ [o]) else List.lookup k' m) := by
  intro m
  induction m with
  | nil =>
    intro k'
    by_cases h : k' = k
    · rw [if_pos h, h]
      show List.lookup k [(k, [o])] = some [o]
      simp
    · rw [if_neg h]
      show List.lookup k' [(k, [o])] = List.lookup k' []
      rw [lookup_cons_ne h]
  | cons kb rest ih =>
    intro k'
    obtain ⟨k0, l⟩ := kb
    by_cases h0 : k0 = k
    · have happ : Univ.appOcc ((k0, l) :: rest) k o = (k0, l ++ [o]) :: rest := by
        simp [Univ.appOcc, h0]
      rw [happ]
      by_cases h' : k' = k0
      · rw [h', if_pos h0]
        rw [h0]
        simp
      · have h'k : k' ≠ k := h0 ▸ h'
        rw [if_neg h'k, lookup_cons_ne h', lookup_cons_ne h']
    · have happ : Univ.appOcc ((k0, l) :: rest) k o = (k0, l) :: Univ.appOcc rest k o := by
        simp [Univ.appOcc, h0]
      rw [happ]
      have hk0k : k ≠ k0 := fun hc => h0 hc.symm
      by_cases h' : k' = k0
      · have h'k : k' ≠ k := fun hc => h0 (h'.symm.trans hc)
        rw [if_neg h'k, h']
        simp
      · rw [lookup_cons_ne h', lookup_cons_ne h', ih k', lookup_cons_ne hk0k]

theorem lookup2_cons_eq {vm : List (String × List Univ.Occ)}
    {rest : List (String × List (String × List Univ.Occ))} {k0 kt : String}
    (h : kt = k0) (v : String) :
    lookup2 ((k0, vm) :: rest) kt v = List.lookup v vm := by
  unfold lookup2
  rw [h]
  simp

theorem lookup2_cons_ne {vm : List (String × List Univ.Occ)}
    {rest : List (String × List (String × List Univ.Occ))} {k0 kt : String}
    (h : kt ≠ k0) (v : String) :
    lookup2 ((k0, vm) :: rest) kt v = lookup2 rest kt v := by
  unfold lookup2
  rw [lookup_cons_ne h]

theorem lookup2_appOcc2 (kt v : String) (o : Univ.Occ) :
    ∀ (m : List (String × List (String × List Univ.Occ))) (kt' v' : String),
      lookup2 (Univ.appOcc2 m kt v o) kt' v' =
        (if kt' = kt ∧ v' = v then some ((lookup2 m kt v).getD [] ++ [o])
         else lookup2 m kt' v') := by
  intro m
  induction m with
  | nil =>
    intro kt' v'
    show lookup2 [(kt, [(v, [o])])] kt' v' = _
    by_cases hk : kt' = kt
    · rw [lookup2_cons_eq hk]
      by_cases hv : v' = v
      · rw [if_pos ⟨hk, hv⟩, hv]
        simp [lookup2]
      · rw [if_neg (fun hc => hv hc.2), lookup_cons_ne hv]
        rfl
    · rw [lookup2_cons_ne hk, if_neg (fun hc => hk hc.1)]
  | cons kb rest ih =>
    intro kt' v'
    obtain ⟨k0, vm⟩ := kb
    by_cases h0 : k0 = kt
    · have happ : Univ.appOcc2 ((k0, vm) :: rest) kt v o =
          (k0, Univ.appOcc vm v o) :: rest := by
        simp [Univ.appOcc2, h0]
      rw [happ]
      by_cases h' : kt' = k0
      · rw [lookup2_cons_eq h', lookup_appOcc v o vm v']
        have hk : kt' = kt := h0 ▸ h'
        by_cases hv : v' = v
        · rw [if_pos hv, if_pos ⟨hk, hv⟩, lookup2_cons_eq h0.symm]
        · rw [if_neg hv, if_neg (fun hc => hv hc.2), lookup2_cons_eq h']
      · have hk : kt' ≠ kt := fun hc => h' (hc.trans h0.symm)
        rw [lookup2_cons_ne h', if_neg (fun hc => hk hc.1), lookup2_cons_ne h']
    · have happ : Univ.appOcc2 ((k0, vm) :: rest) kt v o =
          (k0, vm) :: Univ.appOcc2 rest kt v o := by
        simp [Univ.appOcc2, h0]
      rw [happ]
      have hktk0 : kt ≠ k0 := fun hc => h0 hc.symm
      by_cases h' : kt' = k0
      · have hk : kt' ≠ kt := fun hc => hktk0 (hc.symm.trans h')
        rw [lookup2_cons_eq h', if_neg (fun hc => hk hc.1), lookup2_cons_eq h']
      · rw [lookup2_cons_ne h', ih kt' v', lookup2_cons_ne h', lookup2_cons_ne hktk0]

/-- The value a session's grouped index holds under (key type, value):
the occurrences of every matching key, in extraction order. -/
theorem lookup2_groupFold (kt v : String) :
    ∀ (keys : List Univ.KeyRec) (m : List (String × List (String × List Univ.Occ))),
      lookup2 (keys.foldl (fun m k => Univ.appOcc2 m k.keyType k.value (Univ.toOcc k)) m) kt v =
        (match lookup2 m kt v with
         | some l => some (l ++ (keys.filter
             (fun k => k.keyType == kt && k.value == v)).map Univ.toOcc)
         | Option.none =>
           if (keys.filter (fun k => k.keyType == kt && k.value == v)).isEmpty
           then Option.none
           else some ((keys.filter
             (fun k => k.keyType == kt && k.value == v)).map Univ.toOcc)) := by
  intro keys
  induction keys with
  | nil =>
    intro m
    cases h : lookup2 m kt v with
    | none => simp [h]
    | some l => simp [h]
  | cons k rest ih =>
    intro m
    rw [List.foldl_cons, ih (Univ.appOcc2 m k.keyType k.value (Univ.toOcc k))]
    rw [lookup2_appOcc2 k.keyType k.value (Univ.toOcc k) m kt v]
    by_cases hm : kt = k.keyType ∧ v = k.value
    · have hfil : (k :: rest).filter (fun k => k.keyType == kt && k.value == v) =
          k :: rest.filter (fun k => k.keyType == kt && k.value == v) := by
        rw [List.filter_cons_of_pos]
        simp [hm.1.symm, hm.2.symm]
      rw [if_pos hm, hfil, ← hm.1, ← hm.2]
      cases h : lookup2 m kt v with
      | none => simp
      | some l => simp
    · have hfil : (k :: rest).filter (fun k => k.keyType == kt && k.value == v) =
          rest.filter (fun k => k.keyType == kt && k.value == v) := by
        rw [List.filter_cons_of_neg]
        simp only [Bool.and_eq_true, beq_iff_eq, not_and]
        intro h1 h2
        exact hm ⟨h1.symm, h2.symm⟩
      rw [if_neg hm, hfil]

theorem lookup2_groupKeys (keys : List Univ.KeyRec) (kt v : String) :
    lookup2 (Univ.groupKeys keys) kt v =
      (if (keys.filter (fun k => k.keyType == kt && k.value == v)).isEmpty
       then Option.none
       else some ((keys.filter
         (fun k => k.keyType == kt && k.value == v)).map Univ.toOcc)) := by
  unfold Univ.groupKeys
  rw [lookup2_groupFold kt v keys []]
  rfl

theorem appOcc_fst (k : String) (o : Univ.Occ) :
    ∀ m : List (String × List Univ.Occ),
      (Univ.appOcc m k o).map Prod.fst =
        (if k ∈ m.map Prod.fst then m.map Prod.fst else m.map Prod.fst ++ [k]) := by
  intro m
  induction m with
  | nil => simp [Univ.appOcc]
  | cons kb rest ih =>
    obtain ⟨k0, l⟩ := kb
    by_cases h0 : k0 = k
    · rw [show Univ.appOcc ((k0, l) :: rest) k o = (k0, l ++ [o]) :: rest by
        simp [Univ.appOcc, h0]]
      rw [if_pos (by simp [h0])]
      simp
    · rw [show Univ.appOcc ((k0, l) :: rest) k o = (k0, l) :: Univ.appOcc rest k o by
        simp [Univ.appOcc, h0]]
      by_cases hm : k ∈ rest.map Prod.fst
      · rw [if_pos (by simp [hm])]
        simp only [List.map_cons, ih, if_pos hm]
      · rw [if_neg (by simp only [List.map_cons, List.mem_cons, not_or]; exact ⟨fun hc => h0 hc.symm, hm⟩)]
        simp only [List.map_cons, ih, if_neg hm, List.cons_append]

theorem appOcc_keys_nodup {k : String} {o : Univ.Occ} {m : List (String × List Univ.Occ)}
    (h : (m.map Prod.fst).Nodup) : ((Univ.appOcc m k o).map Prod.fst).Nodup := by
  rw [appOcc_fst]
  by_cases hm : k ∈ m.map Prod.fst
  · rw [if_pos hm]; exact h
  · rw [if_neg hm]
    rw [List.nodup_append]
    exact ⟨h, List.nodup_singleton _, fun a ha hb => hm ((List.mem_singleton.mp hb) ▸ ha)⟩

theorem appOcc2_fst (kt v : String) (o : Univ.Occ) :
    ∀ m : List (String × List (String × List Univ.Occ)),
      (Univ.appOcc2 m kt v o).map Prod.fst =
        (if kt ∈ m.map Prod.fst then m.map Prod.fst else m.map Prod.fst ++ [kt]) := by
  intro m
  induction m with
  | nil => simp [Univ.appOcc2]
  | cons kb rest ih =>
    obtain ⟨k0, vm⟩ := kb
    by_cases h0 : k0 = kt
    · rw [show Univ.appOcc2 ((k0, vm) :: rest) kt v o = (k0, Univ.appOcc vm v o) :: rest by
        simp [Univ.appOcc2, h0]]
      rw [if_pos (by simp [h0])]
      simp
    · rw [show Univ.appOcc2 ((k0, vm) :: rest) kt v o =
          (k0, vm) :: Univ.appOcc2 rest kt v o by simp [Univ.appOcc2, h0]]
      by_cases hm : kt ∈ rest.map Prod.fst
      · rw [if_pos (by simp [hm])]
        simp only [List.map_cons, ih, if_pos hm]
      · rw [if_neg (by simp only [List.map_cons, List.mem_cons, not_or]; exact ⟨fun hc => h0 hc.symm, hm⟩)]
        simp only [List.map_cons, ih, if_neg hm, List.cons_append]

theorem appOcc2_nodup {kt v : String} {o : Univ.Occ} :
    ∀ m : List (String × List (String × List Univ.Occ)),
      (m.map Prod.fst).Nodup → (∀ p ∈ m, (p.2.map Prod.fst).Nodup) →
      ((Univ.appOcc2 m kt v o).map Prod.fst).Nodup ∧
        (∀ p ∈ Univ.appOcc2 m kt v o, (p.2.map Prod.fst).Nodup) := by
  intro m
  induction m with
  | nil =>
    intro _ _
    constructor
    · simp [Univ.appOcc2]
    · intro p hp
      simp only [Univ.appOcc2, List.mem_singleton] at hp
      rw [hp]
      simp
  | cons kb rest ih =>
    intro h1 h2
    obtain ⟨k0, vm⟩ := kb
    by_cases h0 : k0 = kt
    · rw [show Univ.appOcc2 ((k0, vm) :: rest) kt v o = (k0, Univ.appOcc vm v o) :: rest by
        simp [Univ.appOcc2, h0]]
      constructor
      · simpa using h1
      · intro p hp
        rcases List.mem_cons.mp hp with h | h
        · rw [h]
          exact appOcc_keys_nodup (h2 (k0, vm) (List.mem_cons_self _ _))
        · exact h2 p (List.mem_cons_of_mem _ h)
    · rw [show Univ.appOcc2 ((k0, vm) :: rest) kt v o =
          (k0, vm) :: Univ.appOcc2 rest kt v o by simp [Univ.appOcc2, h0]]
      simp only [List.map_cons, List.nodup_cons] at h1
      obtain ⟨hrec1, hrec2⟩ := ih h1.2 (fun p hp => h2 p (List.mem_cons_of_mem _ hp))
      constructor
      · simp only [List.map_cons, List.nodup_cons]
        refine ⟨?_, hrec1⟩
        rw [appOcc2_fst]
        by_cases hm : kt ∈ rest.map Prod.fst
        · rw [if_pos hm]; exact h1.1
        · rw [if_neg hm]
          intro hmem
          rcases List.mem_append.mp hmem with h | h
          · exact h1.1 h
          · exact h0 (List.mem_singleton.mp h)
      · intro p hp
        rcases List.mem_cons.mp hp with h | h
        · rw [h]
          exact h2 (k0, vm) (List.mem_cons_self _ _)
        · exact hrec2 p h

theorem groupKeys_nodup (keys : List Univ.KeyRec) :
    ((Univ.groupKeys keys).map Prod.fst).Nodup ∧
      ∀ p ∈ Univ.groupKeys keys, (p.2.map Prod.fst).Nodup := by
  unfold Univ.groupKeys
  suffices h : ∀ (ks : List Univ.KeyRec) (m : List (String × List (String × List Univ.Occ))),
      (m.map Prod.fst).Nodup → (∀ p ∈ m, (p.2.map Prod.fst).Nodup) →
      (((ks.foldl (fun m k => Univ.appOcc2 m k.keyType k.value (Univ.toOcc k)) m).map
          Prod.fst).Nodup ∧
        ∀ p ∈ ks.foldl (fun m k => Univ.appOcc2 m k.keyType k.value (Univ.toOcc k)) m,
          (p.2.map Prod.fst).Nodup) by
    exact h keys [] (by simp) (by simp)
  intro ks
  induction ks with
  | nil => intro m h1 h2; exact ⟨h1, h2⟩
  | cons k rest ih =>
    intro m h1 h2
    rw [List.foldl_cons]
    obtain ⟨g1, g2⟩ := appOcc2_nodup m h1 h2
    exact ih _ g1 g2

theorem lookup_none_of_not_mem {β : Type} :
    ∀ (l : List (String × β)) (k : String), k ∉ l.map Prod.fst →
      List.lookup k l = Option.none := by
  intro l
  induction l with
  | nil => intro k _; rfl
  | cons kb rest ih =>
    intro k hk
    obtain ⟨k0, b⟩ := kb
    simp only [List.map_cons, List.mem_cons, not_or] at hk
    rw [lookup_cons_ne hk.1]
    exact ih k hk.2

theorem lookup_mem {β : Type} :
    ∀ (l : List (String × β)) (k : String) (b : β),
      List.lookup k l = some b → (k, b) ∈ l := by
  intro l
  induction l with
  | nil => intro k b h; cases h
  | cons kb rest ih =>
    intro k b h
    obtain ⟨k0, b0⟩ := kb
    by_cases hk : k = k0
    · rw [hk] at h ⊢
      rw [List.lookup_cons_self] at h
      injection h with h
      rw [h]
      exact List.mem_cons_self _ _
    · rw [lookup_cons_ne hk] at h
      exact List.mem_cons_of_mem _ (ih k b h)

theorem lookup_filter {β : Type} (g : String × β → Bool) :
    ∀ (l : List (String × β)), ((l.map Prod.fst).Nodup) → ∀ k,
      List.lookup k (l.filter g) =
        (match List.lookup k l with
         | some x => if g (k, x) then some x else Option.none
         | Option.none => Option.none) := by
  intro l
  induction l with
  | nil => intro _ k; rfl
  | cons kb rest ih =>
    intro hnd k
    obtain ⟨k0, x0⟩ := kb
    simp only [List.map_cons, List.nodup_cons] at hnd
    by_cases hk : k = k0
    · rw [hk, List.lookup_cons_self]
      by_cases hg : g (k0, x0) = true
      · rw [List.filter_cons_of_pos hg, List.lookup_cons_self]
        simp [hg]
      · rw [List.filter_cons_of_neg (by simpa using hg)]
        rw [lookup_none_of_not_mem _ _
          (fun hmem => hnd.1 (((List.filter_sublist _).map Prod.fst).subset hmem))]
        simp [hg]
    · have hrec := ih hnd.2 k
      rw [lookup_cons_ne hk]
      by_cases hg : g (k0, x0) = true
      · rw [List.filter_cons_of_pos hg, lookup_cons_ne hk]
        exact hrec
      · rw [List.filter_cons_of_neg (by simpa using hg)]
        exact hrec

theorem lookup_map_vals {β γ : Type} (F : β → γ) :
    ∀ (l : List (String × β)) (k : String),
      List.lookup k (l.map (fun p => (p.1, F p.2))) = (List.lookup k l).map F := by
  intro l
  induction l with
  | nil => intro k; rfl
  | cons kb rest ih =>
    intro k
    obtain ⟨k0, b0⟩ := kb
    by_cases hk : k = k0
    · rw [hk]
      simp only [List.map_cons]
      rw [List.lookup_cons_self, List.lookup_cons_self]
      rfl
    · simp only [List.map_cons]
      rw [lookup_cons_ne hk, lookup_cons_ne hk]
      exact ih k

theorem map_fst_map_vals {β γ : Type} (F : β → γ) (l : List (String × β)) :
    (l.map (fun p => (p.1, F p.2))).map Prod.fst = l.map Prod.fst := by
  induction l with
  | nil => rfl
  | cons kb rest ih => simp [ih]

theorem bnot_isEmpty_true {α : Type} {l : List α} (h : ¬ l.isEmpty = true) :
    (!l.isEmpty) = true := by
  cases hx : l.isEmpty with
  | true => exact absurd hx h
  | false => rfl

theorem bnot_isEmpty_false {α : Type} {l : List α} (h : l.isEmpty = true) :
    (!l.isEmpty) = false := by
  rw [h]
  rfl

/-- **C6.**  The cross-file reference index: every retained entry spans at
least 2 distinct source files; the index maps (key type, value) to exactly
the list of all of that value's occurrences (in extraction order, each
tagged with its originating file) precisely when they span two or more
distinct files, and holds nothing for values confined to a single file;
and each retained (key type, value) pair has exactly one entry (the nested
keys are duplicate-free). -/
theorem c6_cross_reference_index (extract : Univ.FileRes → String → List Univ.KeyRec)
    (results : List (String × Univ.FileRes)) :
    (∀ p ∈ (Univ.buildCrossRefs extract results).crossRefs, ∀ q ∈ p.2,
        2 ≤ Univ.distinctFiles q.2) ∧
    (∀ kt v, lookup2 (Univ.buildCrossRefs extract results).crossRefs kt v =
      (if 2 ≤ Univ.distinctFiles (((Univ.sessionKeys extract results).filter
            (fun k => k.keyType == kt && k.value == v)).map Univ.toOcc)
       then some (((Univ.sessionKeys extract results).filter
            (fun k => k.keyType == kt && k.value == v)).map Univ.toOcc)
       else Option.none)) ∧
    ((Univ.buildCrossRefs extract results).crossRefs.map Prod.fst).Nodup ∧
    (∀ p ∈ (Univ.buildCrossRefs extract results).crossRefs, (p.2.map Prod.fst).Nodup) := by
  have hcr : (Univ.buildCrossRefs extract results).crossRefs =
      ((Univ.groupKeys (Univ.sessionKeys extract results)).map
        (fun p => (p.1, p.2.filter (fun q => 2 ≤ Univ.distinctFiles q.2)))).filter
        (fun p => !p.2.isEmpty) := rfl
  obtain ⟨hnd1, hnd2⟩ := groupKeys_nodup (Univ.sessionKeys extract results)
  refine ⟨?_, ?_, ?_, ?_⟩
  · -- every kept occurrence list spans ≥ 2 files
    intro p hp q hq
    rw [hcr] at hp
    have hp1 := (List.mem_filter.mp hp).1
    obtain ⟨p0, hp0, hpe⟩ := List.mem_map.mp hp1
    rw [← hpe] at hq
    have := (List.mem_filter.mp hq).2
    simpa using this
  · -- the lookup characterisation
    intro kt v
    show (List.lookup kt (Univ.buildCrossRefs extract results).crossRefs).bind
        (List.lookup v) = _
    rw [hcr]
    rw [lookup_filter (fun p : String × List (String × List Univ.Occ) => !p.2.isEmpty) _
      (by rw [map_fst_map_vals]; exact hnd1) kt]
    rw [lookup_map_vals
      (fun vm : List (String × List Univ.Occ) =>
        vm.filter (fun q => 2 ≤ Univ.distinctFiles q.2))
      (Univ.groupKeys (Univ.sessionKeys extract results)) kt]
    have hg := lookup2_groupKeys (Univ.sessionKeys extract results) kt v
    rw [show lookup2 (Univ.groupKeys (Univ.sessionKeys extract results)) kt v =
      (List.lookup kt (Univ.groupKeys (Univ.sessionKeys extract results))).bind
        (List.lookup v) from rfl] at hg
    cases hidx : List.lookup kt (Univ.groupKeys (Univ.sessionKeys extract results)) with
    | none =>
      rw [hidx] at hg
      by_cases hemp : ((Univ.sessionKeys extract results).filter
          (fun k => k.keyType == kt && k.value == v)).isEmpty = true
      · rw [List.isEmpty_iff.mp hemp]
        simp only [List.map_nil]
        rw [if_neg (by simp [Univ.distinctFiles])]
        rfl
      · rw [if_neg hemp] at hg
        simp at hg
    | some vm =>
      have hvmnd : (vm.map Prod.fst).Nodup :=
        hnd2 (kt, vm) (lookup_mem _ kt vm hidx)
      rw [hidx] at hg
      simp only [Option.some_bind] at hg
      show (if (!(vm.filter (fun q => 2 ≤ Univ.distinctFiles q.2)).isEmpty) = true
            then some (vm.filter (fun q => 2 ≤ Univ.distinctFiles q.2))
            else Option.none).bind (List.lookup v) = _
      by_cases hemp : ((Univ.sessionKeys extract results).filter
          (fun k => k.keyType == kt && k.value == v)).isEmpty = true
      · rw [if_pos hemp] at hg
        rw [List.isEmpty_iff.mp hemp]
        simp only [List.map_nil]
        by_cases hk : (vm.filter (fun q => 2 ≤ Univ.distinctFiles q.2)).isEmpty = true
        · rw [bnot_isEmpty_false hk]
          show (Option.none : Option (List Univ.Occ)) = _
          rw [if_neg (by simp [Univ.distinctFiles])]
        · rw [bnot_isEmpty_true hk]
          show List.lookup v (vm.filter (fun q => 2 ≤ Univ.distinctFiles q.2)) = _
          rw [lookup_filter _ vm hvmnd v, hg]
          simp [Univ.distinctFiles]
      · rw [if_neg hemp] at hg
        by_cases hbig : 2 ≤ Univ.distinctFiles
            (((Univ.sessionKeys extract results).filter
              (fun k => k.keyType == kt && k.value == v)).map Univ.toOcc)
        · have hmem : (v, ((Univ.sessionKeys extract results).filter
              (fun k => k.keyType == kt && k.value == v)).map Univ.toOcc) ∈
              vm.filter (fun q => 2 ≤ Univ.distinctFiles q.2) :=
            List.mem_filter.mpr ⟨lookup_mem _ v _ hg, by simpa using hbig⟩
          rw [bnot_isEmpty_true (by
            intro hk
            rw [List.isEmpty_iff.mp hk] at hmem
            cases hmem)]
          show List.lookup v (vm.filter (fun q => 2 ≤ Univ.distinctFiles q.2)) = _
          rw [lookup_filter _ vm hvmnd v, hg]
          simp [hbig]
        · by_cases hk : (vm.filter (fun q => 2 ≤ Univ.distinctFiles q.2)).isEmpty = true
          · rw [bnot_isEmpty_false hk]
            show (Option.none : Option (List Univ.Occ)) = _
            rw [if_neg hbig]
          · rw [bnot_isEmpty_true hk]
            show List.lookup v (vm.filter (fun q => 2 ≤ Univ.distinctFiles q.2)) = _
            rw [lookup_filter _ vm hvmnd v, hg]
            simp [hbig]
  · -- outer keys are duplicate-free
    rw [hcr]
    have hsub : List.Sublist
        ((((Univ.groupKeys (Univ.sessionKeys extract results)).map
          (fun p => (p.1, p.2.filter (fun q => 2 ≤ Univ.distinctFiles q.2)))).filter
          (fun p => !p.2.isEmpty)).map Prod.fst)
        (((Univ.groupKeys (Univ.sessionKeys extract results)).map
          (fun p => (p.1, p.2.filter (fun q => 2 ≤ Univ.distinctFiles q.2)))).map Prod.fst) :=
      (List.filter_sublist _).map Prod.fst
    rw [map_fst_map_vals] at hsub
    exact hnd1.sublist hsub
  · -- inner keys are duplicate-free
    intro p hp
    rw [hcr] at hp
    have hp1 := (List.mem_filter.mp hp).1
    obtain ⟨p0, hp0, hpe⟩ := List.mem_map.mp hp1
    rw [← hpe]
    exact (hnd2 p0 hp0).sublist ((List.filter_sublist _).map Prod.fst)

/-- **C6, witness.**  The characterisation applied to a concrete session:
the invoice reference `1820146074` seen in two files yields one entry
listing both occurrences with their distinct files; the same reference
seen in one file only is absent from the index. -/
theorem c6_cross_reference_index_witness :
    lookup2 (Univ.buildCrossRefs demoExtract demoTwoFiles).crossRefs
        "invoice_ref" "1820146074" =
      some [⟨"A.xlsx", "SOA", []⟩, ⟨"B.xlsx", "SOA", []⟩] ∧
    lookup2 (Univ.buildCrossRefs demoExtract demoOneFile).crossRefs
        "invoice_ref" "1820146074" = Option.none := by
  constructor
  · have h := (c6_cross_reference_index demoExtract demoTwoFiles).2.1
      "invoice_ref" "1820146074"
    rw [h, if_pos (by decide)]
    rfl
  · have h := (c6_cross_reference_index demoExtract demoOneFile).2.1
      "invoice_ref" "1820146074"
    rw [h, if_neg (by decide)]

end PBI
